import Mathlib

set_option maxRecDepth 10000
set_option maxHeartbeats 4000000

/-!
Verification of the PAYE tax-code calculator core: a shallow embedding of the
tax-code parser, validator, NI engine, allowance engine and orchestrator over
exact rational arithmetic (the repository performs its money arithmetic with a
correctly-rounding decimal library, rounding half-up to 2 decimal places), with
JS strings embedded as lists of characters.
-/

/-! ## Precision arithmetic (`precisionCalculations.ts`)

`Decimal.js` is configured with `ROUND_HALF_UP` (ties round away from zero) and
every operation is followed by `toDecimalPlaces(2)`.  We model a JS number as a
rational and each precise operation as the exact operation followed by rounding
to 2 decimal places, half away from zero. -/

/-- Round a rational to 2 decimal places, ties away from zero
(`Decimal.ROUND_HALF_UP` at `toDecimalPlaces(2)`). -/
def round2 (x : ℚ) : ℚ :=
  if 0 ≤ x then (⌊x * 100 + 1/2⌋ : ℚ) / 100 else -((⌊(-x) * 100 + 1/2⌋ : ℚ) / 100)

/-- `preciseAdd` with the default precision of 2. -/
def preciseAdd (a b : ℚ) : ℚ := round2 (a + b)

/-- `preciseSubtract` with the default precision of 2. -/
def preciseSubtract (a b : ℚ) : ℚ := round2 (a - b)

/-- `preciseMultiply` with the default precision of 2. -/
def preciseMultiply (a b : ℚ) : ℚ := round2 (a * b)

/-- `preciseDivide` with the default precision of 2; division by zero returns 0. -/
def preciseDivide (a b : ℚ) : ℚ := if b = 0 then 0 else round2 (a / b)

/-- `preciseRound` with the default precision of 2. -/
def preciseRound (x : ℚ) : ℚ := round2 x

theorem round2_zero : round2 0 = 0 := by
  norm_num [round2]

theorem round2_mono {x y : ℚ} (h : x ≤ y) : round2 x ≤ round2 y := by
  unfold round2
  split_ifs with hx hy hy
  · have : ⌊x * 100 + 1/2⌋ ≤ ⌊y * 100 + 1/2⌋ := Int.floor_le_floor (by linarith)
    have : ((⌊x * 100 + 1/2⌋ : ℤ) : ℚ) ≤ ((⌊y * 100 + 1/2⌋ : ℤ) : ℚ) := by exact_mod_cast this
    linarith
  · linarith
  · have h1 : (0 : ℤ) ≤ ⌊(-x) * 100 + 1/2⌋ := by
      rw [Int.le_floor]
      push_cast
      nlinarith
    have h2 : (0 : ℤ) ≤ ⌊y * 100 + 1/2⌋ := by
      rw [Int.le_floor]
      push_cast
      nlinarith
    have h1' : (0:ℚ) ≤ (⌊(-x) * 100 + 1/2⌋ : ℚ) := by exact_mod_cast h1
    have h2' : (0:ℚ) ≤ (⌊y * 100 + 1/2⌋ : ℚ) := by exact_mod_cast h2
    linarith
  · have : ⌊(-y) * 100 + 1/2⌋ ≤ ⌊(-x) * 100 + 1/2⌋ := Int.floor_le_floor (by linarith)
    have : ((⌊(-y) * 100 + 1/2⌋ : ℤ) : ℚ) ≤ ((⌊(-x) * 100 + 1/2⌋ : ℤ) : ℚ) := by exact_mod_cast this
    linarith

theorem round2_nonneg {x : ℚ} (h : 0 ≤ x) : 0 ≤ round2 x := by
  have := round2_mono h
  rwa [round2_zero] at this

theorem round2_nonpos {x : ℚ} (h : x ≤ 0) : round2 x ≤ 0 := by
  have := round2_mono h
  rwa [round2_zero] at this

/-- A rational lying on the 2-decimal grid (a whole number of pence). -/
def IsCent (x : ℚ) : Prop := ∃ n : ℤ, x = (n : ℚ) / 100

theorem round2_cent (n : ℤ) : round2 ((n : ℚ) / 100) = (n : ℚ) / 100 := by
  unfold round2
  rcases le_or_lt 0 n with hn | hn
  · have hx : (0:ℚ) ≤ (n : ℚ) / 100 := by positivity
    rw [if_pos hx]
    have : (n : ℚ) / 100 * 100 + 1/2 = (n : ℚ) + 1/2 := by ring
    rw [this]
    have : ⌊(n : ℚ) + 1/2⌋ = n := by
      rw [add_comm, Int.floor_add_int]
      norm_num
    rw [this]
  · have hx : ¬ (0:ℚ) ≤ (n : ℚ) / 100 := by
      push_neg
      have : (n:ℚ) < 0 := by exact_mod_cast hn
      nlinarith
    rw [if_neg hx]
    have : -((n : ℚ) / 100) * 100 + 1/2 = ((-n : ℤ) : ℚ) + 1/2 := by push_cast; ring
    rw [this]
    have : ⌊((-n : ℤ) : ℚ) + 1/2⌋ = -n := by
      rw [add_comm, Int.floor_add_int]
      norm_num
    rw [this]
    push_cast
    ring

theorem isCent_round2 (x : ℚ) : IsCent (round2 x) := by
  unfold round2
  split_ifs with hx
  · exact ⟨⌊x * 100 + 1/2⌋, rfl⟩
  · exact ⟨-⌊(-x) * 100 + 1/2⌋, by push_cast; ring⟩

theorem round2_eq_self {x : ℚ} (h : IsCent x) : round2 x = x := by
  obtain ⟨n, rfl⟩ := h
  exact round2_cent n

theorem IsCent.add {x y : ℚ} (hx : IsCent x) (hy : IsCent y) : IsCent (x + y) := by
  obtain ⟨n, rfl⟩ := hx
  obtain ⟨m, rfl⟩ := hy
  exact ⟨n + m, by push_cast; ring⟩

theorem IsCent.min' {x y : ℚ} (hx : IsCent x) (hy : IsCent y) : IsCent (min x y) := by
  rcases le_total x y with h | h
  · rwa [min_eq_left h]
  · rwa [min_eq_right h]

theorem isCent_zero : IsCent 0 := ⟨0, by norm_num⟩

theorem round2_round2 (x : ℚ) : round2 (round2 x) = round2 x :=
  round2_eq_self (isCent_round2 x)

/-! ## JS strings as character lists

The tax-code functions operate on JS strings with `toUpperCase`, `trim`,
`startsWith`, `endsWith`, `includes`, the regex `/\d+/` (first run of digits)
and `parseInt`.  Strings are embedded as `List Char`; the operations below
mirror the ASCII behaviour the source relies on (tax codes are ASCII). -/

/-- ASCII digit test, the `\d` character class. -/
def isDigitChar (c : Char) : Bool := 48 ≤ c.toNat && c.toNat ≤ 57

/-- Whitespace as removed by `String.prototype.trim` (ASCII part). -/
def isJsWhite (c : Char) : Bool :=
  c.toNat = 32 || c.toNat = 9 || c.toNat = 10 || c.toNat = 13

/-- ASCII uppercasing, `String.prototype.toUpperCase` on the characters used. -/
def toUpperChar (c : Char) : Char :=
  if 97 ≤ c.toNat ∧ c.toNat ≤ 122 then Char.ofNat (c.toNat - 32) else c

/-- `String.prototype.trim`. -/
def trimList (l : List Char) : List Char :=
  ((l.dropWhile isJsWhite).reverse.dropWhile isJsWhite).reverse

/-- `String.prototype.startsWith` (first argument the sought needle). -/
def listStartsWith : List Char → List Char → Bool
  | [], _ => true
  | _ :: _, [] => false
  | a :: as, b :: bs => if a = b then listStartsWith as bs else false

/-- `String.prototype.includes` (first argument the sought needle). -/
def listIncludes (needle : List Char) : List Char → Bool
  | [] => needle.isEmpty
  | b :: bs => listStartsWith needle (b :: bs) || listIncludes needle bs

/-- `String.prototype.endsWith` (first argument the sought needle). -/
def listEndsWith (needle hay : List Char) : Bool :=
  listStartsWith needle.reverse hay.reverse

/-- First maximal run of digits, the match of the regex `/\d+/`. -/
def firstDigitRun : List Char → Option (List Char)
  | [] => none
  | c :: rest =>
    if isDigitChar c then some (c :: rest.takeWhile isDigitChar)
    else firstDigitRun rest

/-- `parseInt(s, 10)` on a string of digits. -/
def digitsToNat (ds : List Char) : ℕ :=
  ds.foldl (fun n c => 10 * n + (c.toNat - 48)) 0

theorem isJsWhite_eq_false_of_isDigitChar {c : Char} (h : isDigitChar c = true) :
    isJsWhite c = false := by
  simp only [isDigitChar, Bool.and_eq_true, decide_eq_true_eq] at h
  simp only [isJsWhite, Bool.or_eq_false_iff, decide_eq_false_iff_not]
  omega

theorem toUpperChar_of_isDigitChar {c : Char} (h : isDigitChar c = true) :
    toUpperChar c = c := by
  simp only [isDigitChar, Bool.and_eq_true, decide_eq_true_eq] at h
  unfold toUpperChar
  rw [if_neg]
  omega

theorem toUpperChar_of_isJsWhite {c : Char} (h : isJsWhite c = true) :
    toUpperChar c = c := by
  simp only [isJsWhite, Bool.or_eq_true, decide_eq_true_eq] at h
  unfold toUpperChar
  rw [if_neg]
  omega

theorem dropWhile_eq_self_of_none {p : Char → Bool} {l : List Char}
    (h : ∀ c ∈ l, p c = false) : l.dropWhile p = l := by
  cases l with
  | nil => rfl
  | cons a t =>
    rw [List.dropWhile_cons, h a (List.mem_cons_self a t)]
    simp

theorem takeWhile_eq_self_of_all {p : Char → Bool} {l : List Char}
    (h : ∀ c ∈ l, p c = true) : l.takeWhile p = l := by
  induction l with
  | nil => rfl
  | cons a t ih =>
    rw [List.takeWhile_cons, h a (List.mem_cons_self a t)]
    simp only [if_true]
    rw [ih fun c hc => h c (List.mem_cons_of_mem a hc)]

theorem trimList_eq_self {l : List Char} (h : ∀ c ∈ l, isJsWhite c = false) :
    trimList l = l := by
  unfold trimList
  rw [dropWhile_eq_self_of_none h]
  rw [dropWhile_eq_self_of_none fun c hc => h c (List.mem_reverse.mp hc)]
  exact List.reverse_reverse l

theorem mem_of_listStartsWith {needle hay : List Char} {c : Char}
    (h : listStartsWith needle hay = true) (hc : c ∈ needle) : c ∈ hay := by
  induction needle generalizing hay with
  | nil => cases hc
  | cons a as ih =>
    cases hay with
    | nil => simp [listStartsWith] at h
    | cons b bs =>
      unfold listStartsWith at h
      split_ifs at h with hab
      · rcases List.mem_cons.mp hc with rfl | hmem
        · exact hab ▸ List.mem_cons_self b bs
        · exact List.mem_cons_of_mem b (ih h hmem)

theorem mem_of_listIncludes {needle hay : List Char} {c : Char}
    (h : listIncludes needle hay = true) (hc : c ∈ needle) : c ∈ hay := by
  induction hay with
  | nil =>
    unfold listIncludes at h
    rw [List.isEmpty_iff] at h
    subst h
    cases hc
  | cons b bs ih =>
    unfold listIncludes at h
    rcases Bool.or_eq_true_iff.mp h with h1 | h2
    · exact mem_of_listStartsWith h1 hc
    · exact List.mem_cons_of_mem b (ih h2)

theorem listIncludes_singleton {c : Char} {l : List Char} :
    listIncludes [c] l = true ↔ c ∈ l := by
  induction l with
  | nil => simp [listIncludes]
  | cons b bs ih =>
    unfold listIncludes
    constructor
    · intro h
      rcases Bool.or_eq_true_iff.mp h with h1 | h2
      · exact mem_of_listStartsWith h1 (List.mem_cons_self c [])
      · exact List.mem_cons_of_mem b (ih.mp h2)
    · intro h
      rcases List.mem_cons.mp h with rfl | hmem
      · apply Bool.or_eq_true_iff.mpr
        left
        simp [listStartsWith]
      · exact Bool.or_eq_true_iff.mpr (Or.inr (ih.mpr hmem))

theorem map_toUpperChar_digits {ds : List Char} (h : ∀ c ∈ ds, isDigitChar c = true) :
    ds.map toUpperChar = ds := by
  induction ds with
  | nil => rfl
  | cons a t ih =>
    rw [List.map_cons, toUpperChar_of_isDigitChar (h a (List.mem_cons_self a t)),
      ih fun c hc => h c (List.mem_cons_of_mem a hc)]

/-! ## Tax code parser (`taxCodeParser.ts`)

`TaxCodeInfo.baseAllowance` is an `Option ℚ`: `none` embeds the JS value
`Infinity` used by the `NT` special code, `some q` an ordinary number. -/

structure TaxCodeInfo where
  baseAllowance : Option ℚ
  isScottish : Bool
  isWelsh : Bool
  isNegativeAllowance : Bool
  hasMarriageAllowance : Bool
  marriageAllowanceAmount : ℚ
  specialCodeType : Option String
  taxRate : Option ℚ
  isNonCumulative : Bool
deriving DecidableEq, Repr

/-- The descriptor returned for an empty or missing tax code. -/
def defaultTaxCodeInfo : TaxCodeInfo :=
  { baseAllowance := some 12570
    isScottish := false
    isWelsh := false
    isNegativeAllowance := false
    hasMarriageAllowance := false
    marriageAllowanceAmount := 0
    specialCodeType := none
    taxRate := none
    isNonCumulative := false }

/-- `parseBaseAllowance` of `taxCodeParser.ts`: strips the `SK`/`S`/`C`/`K`
prefix, extracts the first digit run, multiplies by 10 and negates for `K`/`SK`
prefixes (the source's `T`-suffix branch returns the same base value). -/
def parseBaseAllowance (code : List Char) : ℚ :=
  if code = "BR".data ∨ code = "D0".data ∨ code = "D1".data ∨ code = "NT".data then 0
  else
    let pc : List Char × List Char :=
      if listStartsWith ("SK".data) code then ("SK".data, code.drop 2)
      else if listStartsWith ['S'] code then (['S'], code.drop 1)
      else if listStartsWith ['C'] code then (['C'], code.drop 1)
      else if listStartsWith ['K'] code then (['K'], code.drop 1)
      else ([], code)
    match firstDigitRun pc.2 with
    | none => 12570
    | some ds =>
      let numericValue : ℚ := (digitsToNat ds : ℚ) * 10
      if pc.1 = ['K'] ∨ pc.1 = "SK".data then -numericValue
      else if listIncludes ['T'] code ∧ ¬(code = "NT".data ∨ code = "0T".data) then numericValue
      else numericValue

/-- Body of `parseTaxCode` after the empty-input guard, applied to the
normalized (uppercased, trimmed) code. -/
def parseTaxCodeCore (n : List Char) : TaxCodeInfo :=
  let isScottish := listStartsWith ['S'] n
  let isWelsh := listStartsWith ['C'] n
  let isNegativeAllowance := listIncludes ['K'] n
  let sbt : Option String × Option ℚ × Option ℚ :=
    if n = "BR".data then (some "BR", some 20, some 0)
    else if n = "D0".data then (some "D0", some 40, some 0)
    else if n = "D1".data then (some "D1", some 45, some 0)
    else if listIncludes ("NT".data) n then (some "NT", some 0, none)
    else if listStartsWith ("0T".data) n then (some "0T", none, some 0)
    else (none, none, some (parseBaseAllowance n))
  let hasMarriageAllowance :=
    !isNegativeAllowance && (listEndsWith ['M'] n || listEndsWith ['N'] n)
  let marriageAllowanceAmount : ℚ :=
    if hasMarriageAllowance then (if listEndsWith ['M'] n then 1260 else -1260) else 0
  let isNonCumulative :=
    listEndsWith ("W1".data) n || listEndsWith ("M1".data) n || listIncludes ['X'] n
  { baseAllowance := sbt.2.2
    isScottish := isScottish
    isWelsh := isWelsh
    isNegativeAllowance := isNegativeAllowance
    hasMarriageAllowance := hasMarriageAllowance
    marriageAllowanceAmount := marriageAllowanceAmount
    specialCodeType := sbt.1
    taxRate := sbt.2.1
    isNonCumulative := isNonCumulative }

/-- `parseTaxCode` of `taxCodeParser.ts`. -/
def parseTaxCode (taxCode : List Char) : TaxCodeInfo :=
  if taxCode = [] ∨ trimList taxCode = [] then defaultTaxCodeInfo
  else parseTaxCodeCore (trimList (taxCode.map toUpperChar))

/-! ## Tax code validator (`taxCodeValidator.ts`, `validateTaxCode`)

Each accepted regex grammar is embedded as an explicit matcher. -/

structure ValidationResult where
  isValid : Bool
  message : Option String := none
deriving DecidableEq, Repr

/-- `^(BR|D0|D1|NT|0T)$` -/
def matchSpecial (n : List Char) : Bool :=
  n == "BR".data || n == "D0".data || n == "D1".data || n == "NT".data || n == "0T".data

/-- `\d{1,4}` -/
def digits1to4 (l : List Char) : Bool :=
  decide (1 ≤ l.length) && decide (l.length ≤ 4) && l.all isDigitChar

/-- `^K\d{1,4}$` -/
def matchKCode : List Char → Bool
  | c :: rest => c == 'K' && digits1to4 rest
  | [] => false

/-- `^SK\d{1,4}$` -/
def matchSKCode : List Char → Bool
  | a :: b :: rest => a == 'S' && b == 'K' && digits1to4 rest
  | _ => false

/-- `^CK\d{1,4}$` -/
def matchCKCode : List Char → Bool
  | a :: b :: rest => a == 'C' && b == 'K' && digits1to4 rest
  | _ => false

/-- `[TLMNWY]` -/
def letterTLMNWY (c : Char) : Bool :=
  c == 'T' || c == 'L' || c == 'M' || c == 'N' || c == 'W' || c == 'Y'

/-- `(1|W1|M1)?` anchored at the end. -/
def stdSuffixOk (t : List Char) : Bool :=
  t == [] || t == ['1'] || t == "W1".data || t == "M1".data

/-- `^\d{1,4}[TLMNWY](1|W1|M1)?$` -/
def matchStdCore (n : List Char) : Bool :=
  digits1to4 (n.takeWhile isDigitChar) &&
    (match n.dropWhile isDigitChar with
     | c :: tail => letterTLMNWY c && stdSuffixOk tail
     | [] => false)

/-- The standard grammar with a leading `S`. -/
def matchSStd : List Char → Bool
  | a :: rest => a == 'S' && matchStdCore rest
  | [] => false

/-- The standard grammar with a leading `C`. -/
def matchCStd : List Char → Bool
  | a :: rest => a == 'C' && matchStdCore rest
  | [] => false

/-- `validateTaxCode` of `taxCodeValidator.ts`: empty/whitespace is valid, then
the recognized grammars are tried on the uppercased (not trimmed) code. -/
def validateTaxCode (taxCode : List Char) : ValidationResult :=
  if taxCode = [] ∨ trimList taxCode = [] then { isValid := true }
  else
    let n := taxCode.map toUpperChar
    if matchSpecial n || matchKCode n || matchSKCode n || matchCKCode n ||
        matchStdCore n || matchSStd n || matchCStd n
    then { isValid := true }
    else { isValid := false, message := some "Invalid tax code format" }

example : parseTaxCode ("1257L".data) = defaultTaxCodeInfo := by
  simp [parseTaxCode, parseTaxCodeCore, parseBaseAllowance, trimList, listStartsWith,
    listIncludes, listEndsWith, firstDigitRun, digitsToNat, isDigitChar, isJsWhite,
    toUpperChar, defaultTaxCodeInfo]
  norm_num
example : (parseTaxCode ("K100".data)).baseAllowance = some (-1000) := by
  simp [parseTaxCode, parseTaxCodeCore, parseBaseAllowance, trimList, listStartsWith,
    listIncludes, listEndsWith, firstDigitRun, digitsToNat, isDigitChar, isJsWhite,
    toUpperChar]
  norm_num
example : (parseTaxCode ("SK100".data)).baseAllowance = some (-1000) := by
  simp [parseTaxCode, parseTaxCodeCore, parseBaseAllowance, trimList, listStartsWith,
    listIncludes, listEndsWith, firstDigitRun, digitsToNat, isDigitChar, isJsWhite,
    toUpperChar]
  norm_num
example : (parseTaxCode ("CK100".data)).baseAllowance = some 1000 := by
  simp [parseTaxCode, parseTaxCodeCore, parseBaseAllowance, trimList, listStartsWith,
    listIncludes, listEndsWith, firstDigitRun, digitsToNat, isDigitChar, isJsWhite,
    toUpperChar]
  norm_num
example : (parseTaxCode ("CK100".data)).isNegativeAllowance = true := by
  simp [parseTaxCode, parseTaxCodeCore, trimList, listStartsWith, listIncludes,
    isJsWhite, toUpperChar]
example : (parseTaxCode ("KNT".data)).specialCodeType = some "NT" := by
  simp [parseTaxCode, parseTaxCodeCore, trimList, listStartsWith, listIncludes,
    isJsWhite, toUpperChar]
example : (parseTaxCode ("KNT".data)).isNegativeAllowance = true := by
  simp [parseTaxCode, parseTaxCodeCore, trimList, listStartsWith, listIncludes,
    isJsWhite, toUpperChar]
example : (validateTaxCode ("S1257L".data)).isValid = true := by decide
example : (validateTaxCode ("1257X".data)).isValid = false := by decide
example : (validateTaxCode ("k100".data)).isValid = true := by decide

/-! ## Band tables and tax-year data (`taxCodeValidator.ts`, spec section 6)

A band's `to` field is `Option ℚ`: `none` embeds the string `'unlimited'`
sentinel of the source's unbounded top band. -/

structure TaxBandDef where
  name : String
  rate : ℚ
  lo : ℚ
  hi : Option ℚ
deriving DecidableEq, Repr

/-- `UK_TAX_BANDS`, the static UK tax bands for 2023/2024. -/
def UK_TAX_BANDS : List TaxBandDef :=
  [ { name := "Personal Allowance", rate := 0, lo := 0, hi := some 12570 }
  , { name := "Basic Rate", rate := 20, lo := 12571, hi := some 50270 }
  , { name := "Higher Rate", rate := 40, lo := 50271, hi := some 125140 }
  , { name := "Additional Rate", rate := 45, lo := 125141, hi := none } ]

inductive RegionCode where
  | UK
  | Scotland
  | Wales
deriving DecidableEq, Repr

structure TaxRegion where
  name : String
  bands : List TaxBandDef
deriving DecidableEq, Repr

structure TaxYearConfig where
  paTaperThreshold : ℚ
  paTaperRate : ℚ
deriving DecidableEq, Repr

/-- The structure returned by the tax-year data provider (spec section 6). -/
structure TaxYearData where
  regions : RegionCode → TaxRegion
  config : TaxYearConfig

/-- Modelled from the spec: `getTaxYearData` lives in the repository's
`supabaseClient` module, which is not among the source files; per spec section 6
it returns region band tables and a taper config for the tax year.  It is
instantiated here with the repository's static 2023/24 UK band table
`UK_TAX_BANDS` for every region and the spec's default taper configuration
(threshold 100000, rate 0.5, spec section 4.5). -/
def taxYearData2023 : TaxYearData :=
  { regions := fun _ => { name := "UK", bands := UK_TAX_BANDS }
    config := { paTaperThreshold := 100000, paTaperRate := 1/2 } }

/-! ## National Insurance engine (`taxCodeValidator.ts`, `calculateNI`)

`validateNIThresholds` passes the provided well-formed 2023/24 values through
unchanged (its relationship checks only emit warnings), so `NI_THRESHOLDS`
holds the raw annual figures divided by 52 and 12.  The source's unused
`taxYearData` parameter of `calculateNI` is dropped. -/

structure ThresholdTriple where
  WEEKLY : ℚ
  MONTHLY : ℚ
  ANNUAL : ℚ
deriving DecidableEq, Repr

structure NIThresholdPair where
  PRIMARY_THRESHOLD : ThresholdTriple
  UPPER_EARNINGS_LIMIT : ThresholdTriple
deriving DecidableEq, Repr

def NI_THRESHOLDS : NIThresholdPair :=
  { PRIMARY_THRESHOLD := { WEEKLY := 12570/52, MONTHLY := 12570/12, ANNUAL := 12570 }
    UPPER_EARNINGS_LIMIT := { WEEKLY := 50270/52, MONTHLY := 50270/12, ANNUAL := 50270 } }

structure NIRatePair where
  MAIN_RATE : ℚ
  HIGHER_RATE : ℚ
deriving DecidableEq, Repr

def NI_RATES : NIRatePair := { MAIN_RATE := 12/100, HIGHER_RATE := 2/100 }

/-- `calculateNI`: monthly NI from the flat monthly gross. -/
def calculateNI (monthlySalary : ℚ) : ℚ :=
  if monthlySalary ≤ 0 then 0
  else
    let ni0 : ℚ := 0
    let ni1 : ℚ :=
      if monthlySalary > NI_THRESHOLDS.PRIMARY_THRESHOLD.MONTHLY then
        preciseAdd ni0
          (preciseMultiply
            (min (preciseSubtract monthlySalary NI_THRESHOLDS.PRIMARY_THRESHOLD.MONTHLY)
              (preciseSubtract NI_THRESHOLDS.UPPER_EARNINGS_LIMIT.MONTHLY
                NI_THRESHOLDS.PRIMARY_THRESHOLD.MONTHLY))
            NI_RATES.MAIN_RATE)
      else ni0
    let ni2 : ℚ :=
      if monthlySalary > NI_THRESHOLDS.UPPER_EARNINGS_LIMIT.MONTHLY then
        preciseAdd ni1
          (preciseMultiply
            (preciseSubtract monthlySalary NI_THRESHOLDS.UPPER_EARNINGS_LIMIT.MONTHLY)
            NI_RATES.HIGHER_RATE)
      else ni1
    preciseRound ni2

/-- A JS number argument that may be `NaN`; `calculateNI`'s `isNaN` guard
returns 0 for it before any arithmetic. -/
inductive NumInput where
  | nan
  | val (q : ℚ)

/-- `calculateNI` including the `isNaN(monthlySalary)` guard of the source. -/
def calculateNIOnInput : NumInput → ℚ
  | .nan => 0
  | .val q => calculateNI q

/-! ## Income tax over bands (`calculateIncomeTax`) -/

/-- The band loop of `calculateIncomeTax`: allocates the remaining amount to
each band (`to - from` width, the unbounded band takes all that remains),
accumulates per-band tax and stops once the remainder is exhausted.  The
source's unused `taxYearData` parameter is dropped. -/
def incomeTaxLoop : List TaxBandDef → ℚ → ℚ → ℚ
  | [], _, total => total
  | b :: rest, remaining, total =>
    let bandAmount :=
      min (max 0 remaining) (match b.hi with | none => remaining | some hi => hi - b.lo)
    let bandTax := preciseMultiply bandAmount (preciseMultiply b.rate (1/100))
    let total' := preciseAdd total bandTax
    let remaining' := preciseSubtract remaining bandAmount
    if remaining' ≤ 0 then total' else incomeTaxLoop rest remaining' total'

def calculateIncomeTax (taxableAmount : ℚ) (taxRegion : TaxRegion) : ℚ :=
  preciseRound (incomeTaxLoop taxRegion.bands taxableAmount 0)

/-! ## Allowance engine (`calculatePersonalAllowance` and the K-code cap) -/

/-- `calculatePersonalAllowance`: the base allowance, tapered above the
high-income threshold by `min(allowance, floor((salary - threshold) * rate))`.
`none` is the JS `Infinity` allowance of `NT` codes, which the taper leaves at
`Infinity`. -/
def calculatePersonalAllowance (salary : ℚ) (taxCodeInfo : TaxCodeInfo)
    (taxYearData : TaxYearData) : Option ℚ :=
  if salary > taxYearData.config.paTaperThreshold then
    match taxCodeInfo.baseAllowance with
    | none => none
    | some a =>
      let reduction :=
        min a (⌊(salary - taxYearData.config.paTaperThreshold) *
          taxYearData.config.paTaperRate⌋ : ℚ)
      some (preciseSubtract a reduction)
  else taxCodeInfo.baseAllowance

/-- The orchestrator's K-code block: when the parsed code is a K code and the
magnitude of the (tapered) allowance exceeds half the salary, the allowance is
replaced by minus half the salary.  `Math.abs(Infinity)` exceeds every finite
bound, so an infinite allowance is also replaced. -/
def applyKCodeCap (isNegativeAllowance : Bool) (salary : ℚ) (pa : Option ℚ) : Option ℚ :=
  if isNegativeAllowance then
    let maxTaxableAddition := salary * (1/2)
    match pa with
    | none => some (-maxTaxableAddition)
    | some a => if |a| > maxTaxableAddition then some (-maxTaxableAddition) else some a
  else pa

/-! ## Orchestrator (`calculateTaxDetails`)

The 12-entry `monthlyBreakdown` array is embedded as a function from the month
index (0-based, meaningful for indices below 12). -/

structure MonthDetail where
  month : ℕ
  monthNumber : ℕ
  gross : ℚ
  taxFree : Option ℚ
  taxable : ℚ
  incomeTax : ℚ
  nationalInsurance : ℚ
  netPay : ℚ
deriving DecidableEq, Repr

structure AnnualSummary where
  gross : ℚ
  totalIncomeTax : ℚ
  totalNI : ℚ
  netAnnual : ℚ
deriving DecidableEq, Repr

/-- The per-band display entry produced by `calculateTaxBands`; the source
formats `rate` as a percent string, kept here as the numeric rate. -/
structure TaxBandOut where
  band : String
  rateVal : ℚ
  lo : ℚ
  hi : Option ℚ
  amount : ℚ
  tax : ℚ
deriving DecidableEq, Repr

/-- The band loop of `calculateTaxBands` (the unbounded band has `Infinity`
width, so it takes all that remains); pushes one entry per visited band and
stops once the remainder is exhausted. -/
def taxBandsLoop : List TaxBandDef → ℚ → List TaxBandOut
  | [], _ => []
  | b :: rest, remaining =>
    let amountInBand :=
      match b.hi with
      | none => max 0 remaining
      | some hi => min (max 0 remaining) (hi - b.lo)
    let taxInBand := preciseMultiply amountInBand (preciseMultiply b.rate (1/100))
    let entry : TaxBandOut :=
      { band := b.name, rateVal := b.rate, lo := b.lo, hi := b.hi
        amount := amountInBand, tax := taxInBand }
    let remaining' := preciseSubtract remaining amountInBand
    entry :: (if remaining' ≤ 0 then [] else taxBandsLoop rest remaining')

/-- `calculateTaxBands` (its `personalAllowance` parameter is unused in the
source and kept here for the signature). -/
def calculateTaxBands (salary : ℚ) (_personalAllowance : Option ℚ)
    (taxRegion : TaxRegion) : List TaxBandOut :=
  taxBandsLoop taxRegion.bands salary

inductive PeriodType where
  | month
  | week
deriving DecidableEq, Repr

structure CurrentPeriod where
  type : PeriodType
  number : ℤ
deriving DecidableEq, Repr

/-- The orchestrator's mapping of a current period to a 0-based month index:
`number - 1` for months, `floor(number / (52/12)) - 1` for weeks. -/
def periodIndexOf : CurrentPeriod → ℤ
  | ⟨.month, n⟩ => n - 1
  | ⟨.week, n⟩ => ⌊(n : ℚ) / (52/12)⌋ - 1

/-- One month of the breakdown loop (`i` is the 0-based index). -/
def monthDetail (salary : ℚ) (isCumulative : Bool) (taxRegion : TaxRegion)
    (personalAllowance : Option ℚ) (i : ℕ) : MonthDetail :=
  let monthNumber := i + 1
  let monthlyGross := preciseDivide salary 12
  let monthlyAllowance := personalAllowance.map (fun a => preciseDivide a 12)
  let ytdGross :=
    if isCumulative then preciseMultiply monthlyGross (monthNumber : ℚ) else monthlyGross
  let ytdAllowance :=
    if isCumulative then monthlyAllowance.map (fun a => preciseMultiply a (monthNumber : ℚ))
    else monthlyAllowance
  let taxable :=
    match ytdAllowance with
    | none => 0
    | some a => max 0 (preciseSubtract ytdGross a)
  let incomeTax := calculateIncomeTax taxable taxRegion
  let ni := calculateNI monthlyGross
  let currentMonthTax :=
    if isCumulative then preciseDivide incomeTax (monthNumber : ℚ) else incomeTax
  { month := monthNumber
    monthNumber := monthNumber
    gross := monthlyGross
    taxFree := monthlyAllowance.map (fun a => max 0 a)
    taxable := preciseDivide taxable (if isCumulative then (monthNumber : ℚ) else 1)
    incomeTax := currentMonthTax
    nationalInsurance := ni
    netPay := preciseSubtract monthlyGross (preciseAdd currentMonthTax ni) }

/-- The current-period adjustment: every month strictly after the current
period index is frozen to the current month's income tax, NI and net pay. -/
def freezeBreakdown (base : ℕ → MonthDetail) (cp : CurrentPeriod) : ℕ → MonthDetail :=
  let pi := periodIndexOf cp
  if 0 ≤ pi ∧ pi < 12 then
    let pn := pi.toNat
    fun i =>
      if pn < i then
        { base i with
          incomeTax := (base pn).incomeTax
          nationalInsurance := (base pn).nationalInsurance
          netPay := (base pn).netPay }
      else base i
  else base

structure TaxCalculationResult where
  annualSummary : AnnualSummary
  monthlyBreakdown : ℕ → MonthDetail
  incomeTaxBands : List TaxBandOut

/-- `calculateTaxDetails`: clamp the salary, default an empty tax code to
`1257L`, parse, select the region's bands, taper and K-cap the allowance,
build the 12-month breakdown, total it, then apply the current-period freeze
(the annual totals are computed before the freeze). -/
def calculateTaxDetails (annualSalary : ℚ) (taxCode : List Char) (isCumulative : Bool)
    (taxYearData : TaxYearData) (currentPeriod : Option CurrentPeriod) :
    TaxCalculationResult :=
  let salary := if annualSalary < 0 then 0 else annualSalary
  let tCode := if taxCode = [] then "1257L".data else taxCode
  let taxCodeInfo := parseTaxCode tCode
  let regionCode : RegionCode :=
    if taxCodeInfo.isScottish then .Scotland
    else if taxCodeInfo.isWelsh then .Wales
    else .UK
  let taxRegion := taxYearData.regions regionCode
  let personalAllowance :=
    applyKCodeCap taxCodeInfo.isNegativeAllowance salary
      (calculatePersonalAllowance salary taxCodeInfo taxYearData)
  let mb0 := monthDetail salary isCumulative taxRegion personalAllowance
  let annualTax :=
    ((List.range 12).map fun i => (mb0 i).incomeTax).foldl (fun s t => preciseAdd s t) 0
  let annualNI :=
    ((List.range 12).map fun i => (mb0 i).nationalInsurance).foldl
      (fun s t => preciseAdd s t) 0
  let mb :=
    match currentPeriod with
    | none => mb0
    | some cp => freezeBreakdown mb0 cp
  { annualSummary :=
      { gross := salary
        totalIncomeTax := annualTax
        totalNI := annualNI
        netAnnual := preciseSubtract salary (preciseAdd annualTax annualNI) }
    monthlyBreakdown := mb
    incomeTaxBands := calculateTaxBands salary personalAllowance taxRegion }

/-- The K-code 50% overriding limit of `TaxVerificationCalculator.tsx`: the
final period tax is clamped when the code is a K code and the computed period
tax exceeds half the amount earned. -/
def verificationFinalTax (isKCode : Bool) (periodTax totalAmount : ℚ) : ℚ :=
  if isKCode = true ∧ periodTax > totalAmount * (1/2) then totalAmount * (1/2)
  else periodTax

/-! ## Shared evaluation lemmas -/

/-- Parsing the default code `1257L` yields the default descriptor. -/
theorem parseTaxCode_1257L : parseTaxCode ("1257L".data) = defaultTaxCodeInfo := by
  simp [parseTaxCode, parseTaxCodeCore, parseBaseAllowance, trimList, listStartsWith,
    listIncludes, listEndsWith, firstDigitRun, digitsToNat, isDigitChar, isJsWhite,
    toUpperChar, defaultTaxCodeInfo]
  norm_num

/-- The same fact with the character list spelled out (the form simp produces). -/
theorem parseTaxCode_1257L_list : parseTaxCode ['1','2','5','7','L'] = defaultTaxCodeInfo := by
  simp [parseTaxCode, parseTaxCodeCore, parseBaseAllowance, trimList, listStartsWith,
    listIncludes, listEndsWith, firstDigitRun, digitsToNat, isDigitChar, isJsWhite,
    toUpperChar, defaultTaxCodeInfo]
  norm_num

/-! ## Claims -/

/-- Claim C1: the specified scenario — salary 50000, tax code `1257L`, cumulative
accounting, the repository's 2023/24 UK band table — is claimed to produce a
total annual income tax of about 7486.  The orchestrator in fact produces
2426.68: the taxable amount has the personal allowance removed and is then
passed through a band table whose first band is a second 0-percent personal
allowance band, and under cumulative accounting the cumulative tax is divided
by the month number instead of subtracting the prior months' tax.  This
theorem evaluates the code at the failing input. -/
theorem claim_C1 :
    (calculateTaxDetails 50000 ("1257L".data) true taxYearData2023
        none).annualSummary.totalIncomeTax = 2426.68 ∧
    (calculateTaxDetails 50000 ("1257L".data) true taxYearData2023
        none).annualSummary.totalIncomeTax < 7485 := by
  have h0 : (monthDetail 50000 true { name := "UK", bands := UK_TAX_BANDS }
      (some 12570) 0).incomeTax = 0 := by
    norm_num [monthDetail, calculateIncomeTax, incomeTaxLoop, calculateNI, preciseDivide,
      preciseMultiply, preciseSubtract, preciseAdd, preciseRound, round2, UK_TAX_BANDS,
      NI_THRESHOLDS, NI_RATES]
  have h1 : (monthDetail 50000 true { name := "UK", bands := UK_TAX_BANDS }
      (some 12570) 1).incomeTax = 0 := by
    norm_num [monthDetail, calculateIncomeTax, incomeTaxLoop, calculateNI, preciseDivide,
      preciseMultiply, preciseSubtract, preciseAdd, preciseRound, round2, UK_TAX_BANDS,
      NI_THRESHOLDS, NI_RATES]
  have h2 : (monthDetail 50000 true { name := "UK", bands := UK_TAX_BANDS }
      (some 12570) 2).incomeTax = 0 := by
    norm_num [monthDetail, calculateIncomeTax, incomeTaxLoop, calculateNI, preciseDivide,
      preciseMultiply, preciseSubtract, preciseAdd, preciseRound, round2, UK_TAX_BANDS,
      NI_THRESHOLDS, NI_RATES]
  have h3 : (monthDetail 50000 true { name := "UK", bands := UK_TAX_BANDS }
      (some 12570) 3).incomeTax = 0 := by
    norm_num [monthDetail, calculateIncomeTax, incomeTaxLoop, calculateNI, preciseDivide,
      preciseMultiply, preciseSubtract, preciseAdd, preciseRound, round2, UK_TAX_BANDS,
      NI_THRESHOLDS, NI_RATES]
  have h4 : (monthDetail 50000 true { name := "UK", bands := UK_TAX_BANDS }
      (some 12570) 4).incomeTax = 12103/100 := by
    norm_num [monthDetail, calculateIncomeTax, incomeTaxLoop, calculateNI, preciseDivide,
      preciseMultiply, preciseSubtract, preciseAdd, preciseRound, round2, UK_TAX_BANDS,
      NI_THRESHOLDS, NI_RATES]
  have h5 : (monthDetail 50000 true { name := "UK", bands := UK_TAX_BANDS }
      (some 12570) 5).incomeTax = 20483/100 := by
    norm_num [monthDetail, calculateIncomeTax, incomeTaxLoop, calculateNI, preciseDivide,
      preciseMultiply, preciseSubtract, preciseAdd, preciseRound, round2, UK_TAX_BANDS,
      NI_THRESHOLDS, NI_RATES]
  have h6 : (monthDetail 50000 true { name := "UK", bands := UK_TAX_BANDS }
      (some 12570) 6).incomeTax = 26469/100 := by
    norm_num [monthDetail, calculateIncomeTax, incomeTaxLoop, calculateNI, preciseDivide,
      preciseMultiply, preciseSubtract, preciseAdd, preciseRound, round2, UK_TAX_BANDS,
      NI_THRESHOLDS, NI_RATES]
  have h7 : (monthDetail 50000 true { name := "UK", bands := UK_TAX_BANDS }
      (some 12570) 7).incomeTax = 15479/50 := by
    norm_num [monthDetail, calculateIncomeTax, incomeTaxLoop, calculateNI, preciseDivide,
      preciseMultiply, preciseSubtract, preciseAdd, preciseRound, round2, UK_TAX_BANDS,
      NI_THRESHOLDS, NI_RATES]
  have h8 : (monthDetail 50000 true { name := "UK", bands := UK_TAX_BANDS }
      (some 12570) 8).incomeTax = 689/2 := by
    norm_num [monthDetail, calculateIncomeTax, incomeTaxLoop, calculateNI, preciseDivide,
      preciseMultiply, preciseSubtract, preciseAdd, preciseRound, round2, UK_TAX_BANDS,
      NI_THRESHOLDS, NI_RATES]
  have h9 : (monthDetail 50000 true { name := "UK", bands := UK_TAX_BANDS }
      (some 12570) 9).incomeTax = 37243/100 := by
    norm_num [monthDetail, calculateIncomeTax, incomeTaxLoop, calculateNI, preciseDivide,
      preciseMultiply, preciseSubtract, preciseAdd, preciseRound, round2, UK_TAX_BANDS,
      NI_THRESHOLDS, NI_RATES]
  have h10 : (monthDetail 50000 true { name := "UK", bands := UK_TAX_BANDS }
      (some 12570) 10).incomeTax = 39529/100 := by
    norm_num [monthDetail, calculateIncomeTax, incomeTaxLoop, calculateNI, preciseDivide,
      preciseMultiply, preciseSubtract, preciseAdd, preciseRound, round2, UK_TAX_BANDS,
      NI_THRESHOLDS, NI_RATES]
  have h11 : (monthDetail 50000 true { name := "UK", bands := UK_TAX_BANDS }
      (some 12570) 11).incomeTax = 41433/100 := by
    norm_num [monthDetail, calculateIncomeTax, incomeTaxLoop, calculateNI, preciseDivide,
      preciseMultiply, preciseSubtract, preciseAdd, preciseRound, round2, UK_TAX_BANDS,
      NI_THRESHOLDS, NI_RATES]
  have hrange : List.range 12 = [0,1,2,3,4,5,6,7,8,9,10,11] := by decide
  constructor
  all_goals
    simp only [calculateTaxDetails, hrange, List.map_cons, List.map_nil]
    norm_num [parseTaxCode_1257L_list, defaultTaxCodeInfo, applyKCodeCap,
      calculatePersonalAllowance, taxYearData2023, h0, h1, h2, h3, h4, h5, h6, h7, h8,
      h9, h10, h11, List.foldl, preciseAdd, round2]

/-- Claim C7: the empty tax code is equivalent to `1257L`: both parse to the
default descriptor (base allowance 12570, UK region, no flags), and the
orchestrator produces identical results for salary 50000 under cumulative
accounting, for every tax-year data set and every current period. -/
theorem claim_C7 :
    parseTaxCode [] = defaultTaxCodeInfo ∧
    parseTaxCode ("1257L".data) = defaultTaxCodeInfo ∧
    ∀ (yd : TaxYearData) (copt : Option CurrentPeriod),
      calculateTaxDetails 50000 [] true yd copt =
        calculateTaxDetails 50000 ("1257L".data) true yd copt := by
  refine ⟨by simp [parseTaxCode], parseTaxCode_1257L, fun yd copt => rfl⟩

/-- Claim C3: the K-code 50 percent overriding limit.  In the orchestrator the
cap acts at the allowance level: whenever the parsed code is a K code, the
allowance actually used (`applyKCodeCap`) has magnitude at most half the
(non-negative, pre-clamped) salary.  In the verification calculator the cap
acts again at the final-tax level: for a K code the displayed period tax equals
`min(computedTax, 0.5 * periodGrossPay)` and hence never exceeds half the
amount earned in the period. -/
theorem claim_C3 :
    (∀ (salary : ℚ) (pa : Option ℚ) (a : ℚ), 0 ≤ salary →
      applyKCodeCap true salary pa = some a → |a| ≤ salary * (1/2)) ∧
    (∀ (periodTax totalAmount : ℚ),
      verificationFinalTax true periodTax totalAmount = min periodTax (totalAmount * (1/2)) ∧
      verificationFinalTax true periodTax totalAmount ≤ totalAmount * (1/2)) := by
  constructor
  · intro salary pa a hs h
    have hhalf : 0 ≤ salary * (1/2) := by linarith
    unfold applyKCodeCap at h
    rw [if_pos rfl] at h
    cases pa with
    | none =>
      dsimp only at h
      rw [Option.some.injEq] at h
      subst h
      rw [abs_neg, abs_of_nonneg hhalf]
    | some a0 =>
      dsimp only at h
      by_cases hgt : |a0| > salary * (1/2)
      · rw [if_pos hgt, Option.some.injEq] at h
        subst h
        rw [abs_neg, abs_of_nonneg hhalf]
      · rw [if_neg hgt, Option.some.injEq] at h
        subst h
        exact le_of_not_lt hgt
  · intro periodTax totalAmount
    unfold verificationFinalTax
    constructor
    · split_ifs with h
      · exact (min_eq_right (le_of_lt h.2)).symm
      · push_neg at h
        exact (min_eq_left (h rfl)).symm
    · split_ifs with h
      · exact le_refl _
      · push_neg at h
        exact h rfl

/-- Claim C3 witness: at salary 1000 and K-code allowance -2000 the cap
produces -500, whose magnitude is half the salary, and the verification
clamp at period tax 700 over earnings 1000 returns 500. -/
theorem claim_C3_witness :
    (0 ≤ (1000:ℚ) ∧ applyKCodeCap true 1000 (some (-2000)) = some (-500) ∧
      |(-500 : ℚ)| ≤ 1000 * (1/2)) ∧
    verificationFinalTax true 700 1000 = min 700 (1000 * (1/2)) := by
  have hcap : applyKCodeCap true 1000 (some (-2000)) = some (-500) := by
    norm_num [applyKCodeCap]
  exact ⟨⟨by norm_num, hcap, claim_C3.1 1000 (some (-2000)) (-500) (by norm_num) hcap⟩,
    (claim_C3.2 700 1000).1⟩

/-- Claim C10: for a K code (negative base allowance) with salary strictly
above the taper threshold (any tax-year data with a non-negative taper rate),
the taper's `min(allowance, floor((salary - threshold) * rate))` selects the
negative allowance itself, so `calculatePersonalAllowance` returns exactly 0 —
the K-code addition is cancelled before the 50 percent cap, which then leaves
the zero allowance unchanged. -/
theorem claim_C10 (yd : TaxYearData) (hrate : 0 ≤ yd.config.paTaperRate)
    (salary : ℚ) (info : TaxCodeInfo) (q : ℚ) (hq : info.baseAllowance = some q)
    (hneg : q < 0) (hsal : yd.config.paTaperThreshold < salary) :
    calculatePersonalAllowance salary info yd = some 0 ∧
    (0 ≤ salary → applyKCodeCap true salary (calculatePersonalAllowance salary info yd)
      = some 0) := by
  have hfloor : (0:ℚ) ≤ (⌊(salary - yd.config.paTaperThreshold) * yd.config.paTaperRate⌋ : ℚ) := by
    have harg : (0:ℚ) ≤ (salary - yd.config.paTaperThreshold) * yd.config.paTaperRate := by
      apply mul_nonneg (by linarith) hrate
    exact_mod_cast Int.le_floor.mpr (by exact_mod_cast harg)
  have hmain : calculatePersonalAllowance salary info yd = some 0 := by
    unfold calculatePersonalAllowance
    rw [if_pos hsal, hq]
    have hmin : min q (⌊(salary - yd.config.paTaperThreshold) * yd.config.paTaperRate⌋ : ℚ)
        = q := min_eq_left (by linarith)
    simp [preciseSubtract, hmin, round2_zero]
  refine ⟨hmain, fun hs => ?_⟩
  rw [hmain]
  unfold applyKCodeCap
  rw [if_pos rfl]
  have : ¬ |(0:ℚ)| > salary * (1/2) := by
    rw [abs_zero]
    push_neg
    linarith
  simp only [this, if_false, if_neg this]

/-- Claim C10 witness: with the 2023/24 data, salary 150000 and the K-code
`K100` (base allowance -1000), the tapered personal allowance is exactly 0. -/
theorem claim_C10_witness :
    (parseTaxCode ("K100".data)).baseAllowance = some (-1000) ∧
    calculatePersonalAllowance 150000 (parseTaxCode ("K100".data)) taxYearData2023 = some 0 := by
  have hq : (parseTaxCode ("K100".data)).baseAllowance = some (-1000) := by
    simp [parseTaxCode, parseTaxCodeCore, parseBaseAllowance, trimList, listStartsWith,
      listIncludes, listEndsWith, firstDigitRun, digitsToNat, isDigitChar, isJsWhite,
      toUpperChar]
    norm_num
  exact ⟨hq, (claim_C10 taxYearData2023 (by norm_num [taxYearData2023]) 150000
    (parseTaxCode ("K100".data)) (-1000) hq (by norm_num)
    (by norm_num [taxYearData2023])).1⟩

/-- Claim C4 counterexample: the claimed invariant `from` of band n+1 equals
`to` of band n fails on the repository's UK 2023/24 table: band 1 starts at
12571 while band 0 ends at 12570. -/
theorem claim_C4_counterexample :
    (UK_TAX_BANDS.get? 1).map TaxBandDef.lo = some 12571 ∧
    (UK_TAX_BANDS.get? 0).map TaxBandDef.hi = some (some 12570) ∧
    ¬ List.Chain' (fun b1 b2 => b1.hi = some b2.lo) UK_TAX_BANDS := by
  refine ⟨rfl, rfl, fun h => ?_⟩
  simp only [UK_TAX_BANDS, List.chain'_cons] at h
  have h0 := h.1
  rw [Option.some.injEq] at h0
  norm_num at h0

/-- Claim C4, amended: in the repository's static UK 2023/24 band table the
bands are strictly ascending by `from`, gap-free under the table's inclusive
integer convention (`from` of band n+1 equals `to` of band n plus 1, rather
than equal to `to` of band n), the first band starts at 0 and the last band is
unbounded; the Scottish and Welsh tables live in a module absent from the
source tree. -/
theorem claim_C4 :
    List.Chain' (fun b1 b2 => b1.lo < b2.lo ∧ b1.hi = some (b2.lo - 1)) UK_TAX_BANDS ∧
    (UK_TAX_BANDS.head?).map TaxBandDef.lo = some 0 ∧
    (UK_TAX_BANDS.getLast?).map TaxBandDef.hi = some none := by
  refine ⟨?_, rfl, rfl⟩
  simp only [UK_TAX_BANDS, List.chain'_cons, List.chain'_singleton]
  norm_num


/-! ## Projection lemmas for the orchestrator -/

theorem calculateTaxDetails_monthlyBreakdown_some (annualSalary : ℚ) (taxCode : List Char)
    (isCumulative : Bool) (yd : TaxYearData) (cp : CurrentPeriod) :
    (calculateTaxDetails annualSalary taxCode isCumulative yd (some cp)).monthlyBreakdown
      = freezeBreakdown
          ((calculateTaxDetails annualSalary taxCode isCumulative yd
            none).monthlyBreakdown) cp := rfl

theorem calculateTaxDetails_ni_none (annualSalary : ℚ) (taxCode : List Char)
    (isCumulative : Bool) (yd : TaxYearData) (i : ℕ) :
    ((calculateTaxDetails annualSalary taxCode isCumulative yd
        none).monthlyBreakdown i).nationalInsurance
      = calculateNI (preciseDivide (if annualSalary < 0 then 0 else annualSalary) 12) := rfl

theorem freezeBreakdown_eq_of_not_lt (base : ℕ → MonthDetail) (cp : CurrentPeriod)
    (i : ℕ) (h : ¬ periodIndexOf cp < (i : ℤ)) : freezeBreakdown base cp i = base i := by
  unfold freezeBreakdown
  by_cases hr : 0 ≤ periodIndexOf cp ∧ periodIndexOf cp < 12
  · rw [if_pos hr]
    have hlt : ¬ (periodIndexOf cp).toNat < i := by omega
    exact if_neg hlt
  · rw [if_neg hr]

theorem freezeBreakdown_frame (base : ℕ → MonthDetail) (cp : CurrentPeriod) (i : ℕ) :
    (freezeBreakdown base cp i).gross = (base i).gross ∧
    (freezeBreakdown base cp i).taxFree = (base i).taxFree ∧
    (freezeBreakdown base cp i).taxable = (base i).taxable ∧
    (freezeBreakdown base cp i).monthNumber = (base i).monthNumber := by
  unfold freezeBreakdown
  by_cases hr : 0 ≤ periodIndexOf cp ∧ periodIndexOf cp < 12
  · rw [if_pos hr]
    by_cases hlt : (periodIndexOf cp).toNat < i
    · rw [if_pos hlt]
      exact ⟨rfl, rfl, rfl, rfl⟩
    · rw [if_neg hlt]
      exact ⟨rfl, rfl, rfl, rfl⟩
  · rw [if_neg hr]
    exact ⟨rfl, rfl, rfl, rfl⟩

theorem freezeBreakdown_ni_const (base : ℕ → MonthDetail) (cp : CurrentPeriod) (v : ℚ)
    (hall : ∀ j, (base j).nationalInsurance = v) (i : ℕ) :
    (freezeBreakdown base cp i).nationalInsurance = v := by
  unfold freezeBreakdown
  by_cases hr : 0 ≤ periodIndexOf cp ∧ periodIndexOf cp < 12
  · rw [if_pos hr]
    by_cases hlt : (periodIndexOf cp).toNat < i
    · rw [if_pos hlt]
      exact hall _
    · rw [if_neg hlt]
      exact hall _
  · rw [if_neg hr]
    exact hall _

/-- Claim C5: in every orchestrator breakdown — for every salary, tax code,
cumulative flag, tax-year data, current period and month index below 12 — the
month's `nationalInsurance` equals `calculateNI` of the flat monthly gross
`preciseDivide salary 12`: NI is identical across months, never cumulative and
independent of prior periods and of the cumulative flag. -/
theorem claim_C5 (annualSalary : ℚ) (taxCode : List Char) (isCumulative : Bool)
    (yd : TaxYearData) (copt : Option CurrentPeriod) (i : ℕ) (hi : i < 12) :
    ((calculateTaxDetails annualSalary taxCode isCumulative yd
        copt).monthlyBreakdown i).nationalInsurance
      = calculateNI (preciseDivide annualSalary 12) := by
  have hclamp :
      calculateNI (preciseDivide (if annualSalary < 0 then 0 else annualSalary) 12)
        = calculateNI (preciseDivide annualSalary 12) := by
    by_cases hneg : annualSalary < 0
    · rw [if_pos hneg]
      have h1 : preciseDivide (0:ℚ) 12 = 0 := by norm_num [preciseDivide, round2]
      have h2 : preciseDivide annualSalary 12 ≤ 0 := by
        unfold preciseDivide
        rw [if_neg (by norm_num : (12:ℚ) ≠ 0)]
        exact round2_nonpos (div_nonpos_of_nonpos_of_nonneg (le_of_lt hneg) (by norm_num))
      rw [h1]
      rw [show calculateNI 0 = 0 from by rw [calculateNI, if_pos le_rfl]]
      rw [calculateNI, if_pos h2]
    · rw [if_neg hneg]
  cases copt with
  | none => rw [calculateTaxDetails_ni_none]; exact hclamp
  | some cp =>
    rw [calculateTaxDetails_monthlyBreakdown_some]
    refine (freezeBreakdown_ni_const _ cp _ (fun j => ?_) i).trans hclamp
    exact calculateTaxDetails_ni_none annualSalary taxCode isCumulative yd j

/-- Claim C5 witness: at salary 50000, code `1257L`, cumulative accounting and
month index 0 the breakdown's NI equals `calculateNI` of the monthly gross. -/
theorem claim_C5_witness :
    (0:ℕ) < 12 ∧
    ((calculateTaxDetails 50000 ("1257L".data) true taxYearData2023
        none).monthlyBreakdown 0).nationalInsurance
      = calculateNI (preciseDivide 50000 12) :=
  ⟨by norm_num, claim_C5 50000 ("1257L".data) true taxYearData2023 none 0 (by norm_num)⟩

/-- Claim C9: supplying a `currentPeriod` changes only the `incomeTax`,
`nationalInsurance` and `netPay` fields of months strictly after the current
period index: every month keeps its `gross`, `taxFree`, `taxable` and
`monthNumber`, months not after the current period are identical, and the
`annualSummary` (computed before the freeze) and the band breakdown are
identical to the same call without a `currentPeriod`. -/
theorem claim_C9 (annualSalary : ℚ) (taxCode : List Char) (isCumulative : Bool)
    (yd : TaxYearData) (cp : CurrentPeriod) :
    (calculateTaxDetails annualSalary taxCode isCumulative yd (some cp)).annualSummary
      = (calculateTaxDetails annualSalary taxCode isCumulative yd none).annualSummary ∧
    (calculateTaxDetails annualSalary taxCode isCumulative yd (some cp)).incomeTaxBands
      = (calculateTaxDetails annualSalary taxCode isCumulative yd none).incomeTaxBands ∧
    (∀ i : ℕ, i < 12 →
      ((calculateTaxDetails annualSalary taxCode isCumulative yd
          (some cp)).monthlyBreakdown i).gross
        = ((calculateTaxDetails annualSalary taxCode isCumulative yd
            none).monthlyBreakdown i).gross ∧
      ((calculateTaxDetails annualSalary taxCode isCumulative yd
          (some cp)).monthlyBreakdown i).taxFree
        = ((calculateTaxDetails annualSalary taxCode isCumulative yd
            none).monthlyBreakdown i).taxFree ∧
      ((calculateTaxDetails annualSalary taxCode isCumulative yd
          (some cp)).monthlyBreakdown i).taxable
        = ((calculateTaxDetails annualSalary taxCode isCumulative yd
            none).monthlyBreakdown i).taxable ∧
      ((calculateTaxDetails annualSalary taxCode isCumulative yd
          (some cp)).monthlyBreakdown i).monthNumber
        = ((calculateTaxDetails annualSalary taxCode isCumulative yd
            none).monthlyBreakdown i).monthNumber) ∧
    (∀ i : ℕ, i < 12 → ¬ (periodIndexOf cp < (i : ℤ)) →
      (calculateTaxDetails annualSalary taxCode isCumulative yd
          (some cp)).monthlyBreakdown i
        = (calculateTaxDetails annualSalary taxCode isCumulative yd
            none).monthlyBreakdown i) := by
  refine ⟨rfl, rfl, ?_, ?_⟩
  · intro i hi
    rw [calculateTaxDetails_monthlyBreakdown_some]
    exact freezeBreakdown_frame _ cp i
  · intro i hi hle
    rw [calculateTaxDetails_monthlyBreakdown_some]
    exact freezeBreakdown_eq_of_not_lt _ cp i hle

/-- Claim C9 witness: with salary 50000, code `1257L`, cumulative accounting
and current period month 3, the annual summary equals that of the call without
a current period, and month 0 is fully unchanged. -/
theorem claim_C9_witness :
    (calculateTaxDetails 50000 ("1257L".data) true taxYearData2023
        (some { type := PeriodType.month, number := 3 })).annualSummary
      = (calculateTaxDetails 50000 ("1257L".data) true taxYearData2023
          none).annualSummary ∧
    (calculateTaxDetails 50000 ("1257L".data) true taxYearData2023
        (some { type := PeriodType.month, number := 3 })).monthlyBreakdown 0
      = (calculateTaxDetails 50000 ("1257L".data) true taxYearData2023
          none).monthlyBreakdown 0 := by
  have h := claim_C9 50000 ("1257L".data) true taxYearData2023
    { type := PeriodType.month, number := 3 }
  exact ⟨h.1, h.2.2.2 0 (by norm_num) (by norm_num [periodIndexOf])⟩

/-! ## NI evaluation forms and monotonicity -/

theorem preciseAdd_zero_mult (a b : ℚ) :
    preciseAdd 0 (preciseMultiply a b) = preciseMultiply a b := by
  unfold preciseAdd preciseMultiply
  rw [zero_add, round2_round2]

theorem preciseRound_mult (a b : ℚ) :
    preciseRound (preciseMultiply a b) = preciseMultiply a b := by
  unfold preciseRound preciseMultiply
  rw [round2_round2]

theorem preciseRound_preciseAdd (a b : ℚ) :
    preciseRound (preciseAdd a b) = preciseAdd a b := by
  unfold preciseRound preciseAdd
  rw [round2_round2]

theorem preciseAdd_cent {a b : ℚ} (ha : IsCent a) (hb : IsCent b) :
    preciseAdd a b = a + b :=
  round2_eq_self (ha.add hb)

theorem isCent_preciseMultiply (a b : ℚ) : IsCent (preciseMultiply a b) :=
  isCent_round2 _

theorem calculateNI_of_nonpos {x : ℚ} (h : x ≤ 0) : calculateNI x = 0 := by
  rw [calculateNI, if_pos h]

theorem calculateNI_below_pt {x : ℚ}
    (h : x ≤ NI_THRESHOLDS.PRIMARY_THRESHOLD.MONTHLY) : calculateNI x = 0 := by
  rcases le_or_lt x 0 with h0 | h0
  · exact calculateNI_of_nonpos h0
  · rw [calculateNI, if_neg (not_le.mpr h0)]
    have h1 : ¬ NI_THRESHOLDS.PRIMARY_THRESHOLD.MONTHLY < x := not_lt.mpr h
    have h2 : ¬ NI_THRESHOLDS.UPPER_EARNINGS_LIMIT.MONTHLY < x := by
      have hlt : NI_THRESHOLDS.PRIMARY_THRESHOLD.MONTHLY
          < NI_THRESHOLDS.UPPER_EARNINGS_LIMIT.MONTHLY := by norm_num [NI_THRESHOLDS]
      exact not_lt.mpr (le_trans h (le_of_lt hlt))
    dsimp only
    rw [if_neg h2, if_neg h1, preciseRound, round2_zero]

theorem calculateNI_mid {x : ℚ} (h1 : NI_THRESHOLDS.PRIMARY_THRESHOLD.MONTHLY < x)
    (h2 : ¬ NI_THRESHOLDS.UPPER_EARNINGS_LIMIT.MONTHLY < x) :
    calculateNI x = preciseMultiply
      (min (preciseSubtract x NI_THRESHOLDS.PRIMARY_THRESHOLD.MONTHLY)
        (preciseSubtract NI_THRESHOLDS.UPPER_EARNINGS_LIMIT.MONTHLY
          NI_THRESHOLDS.PRIMARY_THRESHOLD.MONTHLY))
      NI_RATES.MAIN_RATE := by
  have h0 : 0 < x := lt_trans (by norm_num [NI_THRESHOLDS]) h1
  rw [calculateNI, if_neg (not_le.mpr h0)]
  dsimp only
  rw [if_neg h2, if_pos h1, preciseAdd_zero_mult, preciseRound_mult]

theorem calculateNI_high {x : ℚ}
    (h2 : NI_THRESHOLDS.UPPER_EARNINGS_LIMIT.MONTHLY < x) :
    calculateNI x = preciseMultiply
      (min (preciseSubtract x NI_THRESHOLDS.PRIMARY_THRESHOLD.MONTHLY)
        (preciseSubtract NI_THRESHOLDS.UPPER_EARNINGS_LIMIT.MONTHLY
          NI_THRESHOLDS.PRIMARY_THRESHOLD.MONTHLY))
      NI_RATES.MAIN_RATE +
      preciseMultiply
        (preciseSubtract x NI_THRESHOLDS.UPPER_EARNINGS_LIMIT.MONTHLY)
        NI_RATES.HIGHER_RATE := by
  have h1 : NI_THRESHOLDS.PRIMARY_THRESHOLD.MONTHLY < x :=
    lt_trans (by norm_num [NI_THRESHOLDS]) h2
  have h0 : 0 < x := lt_trans (by norm_num [NI_THRESHOLDS]) h1
  rw [calculateNI, if_neg (not_le.mpr h0)]
  dsimp only
  rw [if_pos h2, if_pos h1, preciseAdd_zero_mult, preciseRound_preciseAdd]
  exact preciseAdd_cent (isCent_preciseMultiply _ _) (isCent_preciseMultiply _ _)

/-- Claim C6: `calculateNI` is non-decreasing on non-negative monthly pay,
returns exactly 0 at or below the monthly primary threshold, returns 0 on every
non-positive input, and its `isNaN` guard returns 0 for a NaN input. -/
theorem claim_C6 :
    (∀ x y : ℚ, 0 ≤ x → x ≤ y → calculateNI x ≤ calculateNI y) ∧
    (∀ x : ℚ, x ≤ NI_THRESHOLDS.PRIMARY_THRESHOLD.MONTHLY → calculateNI x = 0) ∧
    (∀ x : ℚ, x ≤ 0 → calculateNI x = 0) ∧
    calculateNIOnInput NumInput.nan = 0 := by
  have hR : (0:ℚ) ≤ NI_RATES.MAIN_RATE := by norm_num [NI_RATES]
  have hR2 : (0:ℚ) ≤ NI_RATES.HIGHER_RATE := by norm_num [NI_RATES]
  have hD : (0:ℚ) ≤ preciseSubtract NI_THRESHOLDS.UPPER_EARNINGS_LIMIT.MONTHLY
      NI_THRESHOLDS.PRIMARY_THRESHOLD.MONTHLY :=
    round2_nonneg (by norm_num [NI_THRESHOLDS])
  have hm_mono : ∀ x y : ℚ, x ≤ y →
      preciseMultiply
        (min (preciseSubtract x NI_THRESHOLDS.PRIMARY_THRESHOLD.MONTHLY)
          (preciseSubtract NI_THRESHOLDS.UPPER_EARNINGS_LIMIT.MONTHLY
            NI_THRESHOLDS.PRIMARY_THRESHOLD.MONTHLY)) NI_RATES.MAIN_RATE ≤
      preciseMultiply
        (min (preciseSubtract y NI_THRESHOLDS.PRIMARY_THRESHOLD.MONTHLY)
          (preciseSubtract NI_THRESHOLDS.UPPER_EARNINGS_LIMIT.MONTHLY
            NI_THRESHOLDS.PRIMARY_THRESHOLD.MONTHLY)) NI_RATES.MAIN_RATE := by
    intro x y hxy
    apply round2_mono
    apply mul_le_mul_of_nonneg_right _ hR
    exact min_le_min (round2_mono (by linarith)) le_rfl
  have hm_nonneg : ∀ x : ℚ, NI_THRESHOLDS.PRIMARY_THRESHOLD.MONTHLY ≤ x →
      (0:ℚ) ≤ preciseMultiply
        (min (preciseSubtract x NI_THRESHOLDS.PRIMARY_THRESHOLD.MONTHLY)
          (preciseSubtract NI_THRESHOLDS.UPPER_EARNINGS_LIMIT.MONTHLY
            NI_THRESHOLDS.PRIMARY_THRESHOLD.MONTHLY)) NI_RATES.MAIN_RATE := by
    intro x hx
    apply round2_nonneg
    apply mul_nonneg _ hR
    exact le_min (round2_nonneg (by linarith)) hD
  have hh_mono : ∀ x y : ℚ, x ≤ y →
      preciseMultiply (preciseSubtract x NI_THRESHOLDS.UPPER_EARNINGS_LIMIT.MONTHLY)
        NI_RATES.HIGHER_RATE ≤
      preciseMultiply (preciseSubtract y NI_THRESHOLDS.UPPER_EARNINGS_LIMIT.MONTHLY)
        NI_RATES.HIGHER_RATE := by
    intro x y hxy
    apply round2_mono
    exact mul_le_mul_of_nonneg_right (round2_mono (by linarith)) hR2
  have hh_nonneg : ∀ x : ℚ, NI_THRESHOLDS.UPPER_EARNINGS_LIMIT.MONTHLY ≤ x →
      (0:ℚ) ≤ preciseMultiply
        (preciseSubtract x NI_THRESHOLDS.UPPER_EARNINGS_LIMIT.MONTHLY)
        NI_RATES.HIGHER_RATE := by
    intro x hx
    exact round2_nonneg (mul_nonneg (round2_nonneg (by linarith)) hR2)
  have hnonneg : ∀ y : ℚ, 0 ≤ calculateNI y := by
    intro y
    rcases le_or_lt y NI_THRESHOLDS.PRIMARY_THRESHOLD.MONTHLY with hy | hy
    · rw [calculateNI_below_pt hy]
    · rcases lt_or_le NI_THRESHOLDS.UPPER_EARNINGS_LIMIT.MONTHLY y with hy2 | hy2
      · rw [calculateNI_high hy2]
        have := hm_nonneg y (le_of_lt hy)
        have := hh_nonneg y (le_of_lt hy2)
        linarith
      · rw [calculateNI_mid hy (not_lt.mpr hy2)]
        exact hm_nonneg y (le_of_lt hy)
  refine ⟨?_, fun x hx => calculateNI_below_pt hx, fun x hx => calculateNI_of_nonpos hx, rfl⟩
  intro x y hx hxy
  rcases le_or_lt x NI_THRESHOLDS.PRIMARY_THRESHOLD.MONTHLY with hx1 | hx1
  · rw [calculateNI_below_pt hx1]
    exact hnonneg y
  · have hy1 : NI_THRESHOLDS.PRIMARY_THRESHOLD.MONTHLY < y := lt_of_lt_of_le hx1 hxy
    rcases lt_or_le NI_THRESHOLDS.UPPER_EARNINGS_LIMIT.MONTHLY x with hx2 | hx2
    · have hy2 : NI_THRESHOLDS.UPPER_EARNINGS_LIMIT.MONTHLY < y := lt_of_lt_of_le hx2 hxy
      rw [calculateNI_high hx2, calculateNI_high hy2]
      exact add_le_add (hm_mono x y hxy) (hh_mono x y hxy)
    · rcases lt_or_le NI_THRESHOLDS.UPPER_EARNINGS_LIMIT.MONTHLY y with hy2 | hy2
      · rw [calculateNI_mid hx1 (not_lt.mpr hx2), calculateNI_high hy2]
        have h1 := hm_mono x y hxy
        have h2 := hh_nonneg y (le_of_lt hy2)
        linarith
      · rw [calculateNI_mid hx1 (not_lt.mpr hx2), calculateNI_mid hy1 (not_lt.mpr hy2)]
        exact hm_mono x y hxy

/-- Claim C6 witness: `calculateNI` at 1000 (below the monthly threshold
1047.50) is 0, at 800 it is 0, and monotonicity applies at 1000 and 2000. -/
theorem claim_C6_witness :
    (0:ℚ) ≤ 1000 ∧ (1000:ℚ) ≤ 2000 ∧ calculateNI 1000 ≤ calculateNI 2000 ∧
    (800:ℚ) ≤ NI_THRESHOLDS.PRIMARY_THRESHOLD.MONTHLY ∧ calculateNI 800 = 0 ∧
    ((-5:ℚ) ≤ 0 ∧ calculateNI (-5) = 0) :=
  ⟨by norm_num, by norm_num,
    claim_C6.1 1000 2000 (by norm_num) (by norm_num),
    by norm_num [NI_THRESHOLDS],
    claim_C6.2.1 800 (by norm_num [NI_THRESHOLDS]),
    ⟨by norm_num, claim_C6.2.2.1 (-5) (by norm_num)⟩⟩

/-! ## Structural lemmas on parsing -/

theorem listIncludes_eq_false_of_not_mem {needle hay : List Char} {c : Char}
    (hc : c ∈ needle) (h : c ∉ hay) : listIncludes needle hay = false := by
  rcases Bool.eq_false_or_eq_true (listIncludes needle hay) with hb | hb
  · exact absurd (mem_of_listIncludes hb hc) h
  · exact hb

theorem listStartsWith_cons_of_ne {a b : Char} {as bs : List Char} (h : a ≠ b) :
    listStartsWith (a :: as) (b :: bs) = false := by
  unfold listStartsWith
  rw [if_neg h]

theorem firstDigitRun_all {ds : List Char} (hne : ds ≠ [])
    (hds : ∀ c ∈ ds, isDigitChar c = true) : firstDigitRun ds = some ds := by
  cases ds with
  | nil => exact absurd rfl hne
  | cons d t =>
    unfold firstDigitRun
    rw [if_pos (hds d (List.mem_cons_self d t))]
    rw [takeWhile_eq_self_of_all fun c hc => hds c (List.mem_cons_of_mem d hc)]

/-- `parseTaxCode` reduces to the core on inputs whose uppercase form has no
whitespace. -/
theorem parseTaxCode_eval {l n : List Char} (hl : l ≠ [])
    (hmap : l.map toUpperChar = n) (hwhite : ∀ c ∈ n, isJsWhite c = false) :
    parseTaxCode l = parseTaxCodeCore n := by
  have hlw : ∀ c ∈ l, isJsWhite c = false := by
    intro c hc
    rcases Bool.eq_false_or_eq_true (isJsWhite c) with hw | hw
    · have hmem : toUpperChar c ∈ n := hmap ▸ List.mem_map_of_mem toUpperChar hc
      rw [toUpperChar_of_isJsWhite hw] at hmem
      rw [hwhite c hmem] at hw
      exact absurd hw (by simp)
    · exact hw
  have htrim : trimList l = l := trimList_eq_self hlw
  unfold parseTaxCode
  rw [if_neg (by
    rintro (h | h)
    · exact hl h
    · rw [htrim] at h
      exact hl h)]
  rw [hmap, trimList_eq_self hwhite]

theorem parseTaxCodeCore_isNeg (n : List Char) :
    (parseTaxCodeCore n).isNegativeAllowance = listIncludes ['K'] n := rfl

theorem parseTaxCodeCore_not_special {n : List Char}
    (h1 : n ≠ "BR".data) (h2 : n ≠ "D0".data) (h3 : n ≠ "D1".data)
    (h4 : listIncludes ("NT".data) n = false)
    (h5 : listStartsWith ("0T".data) n = false) :
    (parseTaxCodeCore n).baseAllowance = some (parseBaseAllowance n) ∧
    (parseTaxCodeCore n).specialCodeType = none := by
  unfold parseTaxCodeCore
  dsimp only
  rw [if_neg h1, if_neg h2, if_neg h3]
  rw [if_neg (by rw [h4]; exact Bool.false_ne_true)]
  rw [if_neg (by rw [h5]; exact Bool.false_ne_true)]
  exact ⟨rfl, rfl⟩

theorem listStartsWith_self_cons (a : Char) (rest : List Char) :
    listStartsWith [a] (a :: rest) = true := by
  unfold listStartsWith
  rw [if_pos rfl]
  rfl

theorem parseBaseAllowance_K {ds : List Char} (hne : ds ≠ [])
    (hds : ∀ c ∈ ds, isDigitChar c = true) :
    parseBaseAllowance ('K' :: ds) = -((digitsToNat ds : ℚ) * 10) := by
  have hflat : ¬(('K' :: ds) = "BR".data ∨ ('K' :: ds) = "D0".data ∨
      ('K' :: ds) = "D1".data ∨ ('K' :: ds) = "NT".data) := by
    rintro (h | h | h | h) <;>
      first
        | (injection h with h1 _; exact absurd h1 (by decide))
  have hSK : listStartsWith ("SK".data) ('K' :: ds) = false :=
    listStartsWith_cons_of_ne (by decide)
  have hS : listStartsWith ['S'] ('K' :: ds) = false :=
    listStartsWith_cons_of_ne (by decide)
  have hC : listStartsWith ['C'] ('K' :: ds) = false :=
    listStartsWith_cons_of_ne (by decide)
  have hK : listStartsWith ['K'] ('K' :: ds) = true := listStartsWith_self_cons _ _
  unfold parseBaseAllowance
  rw [if_neg hflat]
  simp [hSK, hS, hC, hK, firstDigitRun_all hne hds]

theorem parseBaseAllowance_SK {ds : List Char} (hne : ds ≠ [])
    (hds : ∀ c ∈ ds, isDigitChar c = true) :
    parseBaseAllowance ('S' :: 'K' :: ds) = -((digitsToNat ds : ℚ) * 10) := by
  have hflat : ¬(('S' :: 'K' :: ds) = "BR".data ∨ ('S' :: 'K' :: ds) = "D0".data ∨
      ('S' :: 'K' :: ds) = "D1".data ∨ ('S' :: 'K' :: ds) = "NT".data) := by
    rintro (h | h | h | h) <;>
      first
        | (injection h with h1 _; exact absurd h1 (by decide))
  have hSK : listStartsWith ("SK".data) ('S' :: 'K' :: ds) = true := by
    simp [listStartsWith]
  unfold parseBaseAllowance
  rw [if_neg hflat]
  simp [hSK, firstDigitRun_all hne hds]

theorem parseBaseAllowance_CK {ds : List Char} (hne : ds ≠ [])
    (hds : ∀ c ∈ ds, isDigitChar c = true) :
    parseBaseAllowance ('C' :: 'K' :: ds) = (digitsToNat ds : ℚ) * 10 := by
  have hflat : ¬(('C' :: 'K' :: ds) = "BR".data ∨ ('C' :: 'K' :: ds) = "D0".data ∨
      ('C' :: 'K' :: ds) = "D1".data ∨ ('C' :: 'K' :: ds) = "NT".data) := by
    rintro (h | h | h | h) <;>
      first
        | (injection h with h1 _; exact absurd h1 (by decide))
  have hSK : listStartsWith ("SK".data) ('C' :: 'K' :: ds) = false :=
    listStartsWith_cons_of_ne (by decide)
  have hS : listStartsWith ['S'] ('C' :: 'K' :: ds) = false :=
    listStartsWith_cons_of_ne (by decide)
  have hC : listStartsWith ['C'] ('C' :: 'K' :: ds) = true := listStartsWith_self_cons _ _
  have hrun : firstDigitRun ('K' :: ds) = some ds := by
    unfold firstDigitRun
    rw [if_neg (by decide)]
    exact firstDigitRun_all hne hds
  unfold parseBaseAllowance
  rw [if_neg hflat]
  simp [hSK, hS, hC, hrun]

/-- Claim C2, amended: for every run of 1 to 4 digits, `K`-prefixed and
`SK`-prefixed codes parse to `baseAllowance = -(N*10)` with
`isNegativeAllowance = true` as claimed, but `CK`-prefixed codes — whose
prefix is stripped as the Welsh `C` before the `K` is examined — parse to the
positive `baseAllowance = N*10` while still setting
`isNegativeAllowance = true`. -/
theorem claim_C2 (ds : List Char) (h1 : 1 ≤ ds.length) (h4 : ds.length ≤ 4)
    (hds : ∀ c ∈ ds, isDigitChar c = true) :
    ((parseTaxCode ('K' :: ds)).baseAllowance = some (-((digitsToNat ds : ℚ) * 10)) ∧
      (parseTaxCode ('K' :: ds)).isNegativeAllowance = true) ∧
    ((parseTaxCode ('S' :: 'K' :: ds)).baseAllowance = some (-((digitsToNat ds : ℚ) * 10)) ∧
      (parseTaxCode ('S' :: 'K' :: ds)).isNegativeAllowance = true) ∧
    ((parseTaxCode ('C' :: 'K' :: ds)).baseAllowance = some ((digitsToNat ds : ℚ) * 10) ∧
      (parseTaxCode ('C' :: 'K' :: ds)).isNegativeAllowance = true) := by
  have hne : ds ≠ [] := by
    intro h
    rw [h] at h1
    simp at h1
  have hnotmem : ∀ c : Char, isDigitChar c = false → c ∉ ds := by
    intro c hc hmem
    rw [hds c hmem] at hc
    exact absurd hc (by simp)
  have hwds : ∀ c ∈ ds, isJsWhite c = false :=
    fun c hc => isJsWhite_eq_false_of_isDigitChar (hds c hc)
  have hmds : ds.map toUpperChar = ds := map_toUpperChar_digits hds
  refine ⟨?_, ?_, ?_⟩
  · have hmap : ('K' :: ds).map toUpperChar = 'K' :: ds := by
      rw [List.map_cons, hmds, show toUpperChar 'K' = 'K' from by decide]
    have hwhite : ∀ c ∈ ('K' :: ds), isJsWhite c = false := by
      intro c hc
      rcases List.mem_cons.mp hc with rfl | h
      · decide
      · exact hwds c h
    have heval := parseTaxCode_eval (by simp) hmap hwhite
    have hN : 'N' ∉ ('K' :: ds) := by
      intro h
      rcases List.mem_cons.mp h with h | h
      · exact absurd h (by decide)
      · exact hnotmem 'N' (by decide) h
    obtain ⟨hbase, _⟩ := parseTaxCodeCore_not_special
      (by intro h; injection h with h1 _; exact absurd h1 (by decide))
      (by intro h; injection h with h1 _; exact absurd h1 (by decide))
      (by intro h; injection h with h1 _; exact absurd h1 (by decide))
      (listIncludes_eq_false_of_not_mem (show 'N' ∈ "NT".data from by decide) hN)
      (listStartsWith_cons_of_ne (by decide))
    refine ⟨?_, ?_⟩
    · rw [heval, hbase, parseBaseAllowance_K hne hds]
    · rw [heval, parseTaxCodeCore_isNeg]
      exact listIncludes_singleton.mpr (List.mem_cons_self 'K' ds)
  · have hmap : ('S' :: 'K' :: ds).map toUpperChar = 'S' :: 'K' :: ds := by
      rw [List.map_cons, List.map_cons, hmds, show toUpperChar 'S' = 'S' from by decide,
        show toUpperChar 'K' = 'K' from by decide]
    have hwhite : ∀ c ∈ ('S' :: 'K' :: ds), isJsWhite c = false := by
      intro c hc
      rcases List.mem_cons.mp hc with rfl | h
      · decide
      · rcases List.mem_cons.mp h with rfl | h
        · decide
        · exact hwds c h
    have heval := parseTaxCode_eval (by simp) hmap hwhite
    have hN : 'N' ∉ ('S' :: 'K' :: ds) := by
      intro h
      rcases List.mem_cons.mp h with h | h
      · exact absurd h (by decide)
      · rcases List.mem_cons.mp h with h | h
        · exact absurd h (by decide)
        · exact hnotmem 'N' (by decide) h
    obtain ⟨hbase, _⟩ := parseTaxCodeCore_not_special
      (by intro h; injection h with h1 _; exact absurd h1 (by decide))
      (by intro h; injection h with h1 _; exact absurd h1 (by decide))
      (by intro h; injection h with h1 _; exact absurd h1 (by decide))
      (listIncludes_eq_false_of_not_mem (show 'N' ∈ "NT".data from by decide) hN)
      (listStartsWith_cons_of_ne (by decide))
    refine ⟨?_, ?_⟩
    · rw [heval, hbase, parseBaseAllowance_SK hne hds]
    · rw [heval, parseTaxCodeCore_isNeg]
      exact listIncludes_singleton.mpr
        (List.mem_cons_of_mem 'S' (List.mem_cons_self 'K' ds))
  · have hmap : ('C' :: 'K' :: ds).map toUpperChar = 'C' :: 'K' :: ds := by
      rw [List.map_cons, List.map_cons, hmds, show toUpperChar 'C' = 'C' from by decide,
        show toUpperChar 'K' = 'K' from by decide]
    have hwhite : ∀ c ∈ ('C' :: 'K' :: ds), isJsWhite c = false := by
      intro c hc
      rcases List.mem_cons.mp hc with rfl | h
      · decide
      · rcases List.mem_cons.mp h with rfl | h
        · decide
        · exact hwds c h
    have heval := parseTaxCode_eval (by simp) hmap hwhite
    have hN : 'N' ∉ ('C' :: 'K' :: ds) := by
      intro h
      rcases List.mem_cons.mp h with h | h
      · exact absurd h (by decide)
      · rcases List.mem_cons.mp h with h | h
        · exact absurd h (by decide)
        · exact hnotmem 'N' (by decide) h
    obtain ⟨hbase, _⟩ := parseTaxCodeCore_not_special
      (by intro h; injection h with h1 _; exact absurd h1 (by decide))
      (by intro h; injection h with h1 _; exact absurd h1 (by decide))
      (by intro h; injection h with h1 _; exact absurd h1 (by decide))
      (listIncludes_eq_false_of_not_mem (show 'N' ∈ "NT".data from by decide) hN)
      (listStartsWith_cons_of_ne (by decide))
    refine ⟨?_, ?_⟩
    · rw [heval, hbase, parseBaseAllowance_CK hne hds]
    · rw [heval, parseTaxCodeCore_isNeg]
      exact listIncludes_singleton.mpr
        (List.mem_cons_of_mem 'C' (List.mem_cons_self 'K' ds))

/-- Claim C2 counterexample: `CK100` parses with `isNegativeAllowance = true`
but `baseAllowance = +1000`, not `-(100*10) = -1000` as the claim states for
CK codes. -/
theorem claim_C2_counterexample :
    (parseTaxCode ("CK100".data)).isNegativeAllowance = true ∧
    (parseTaxCode ("CK100".data)).baseAllowance = some 1000 ∧
    ¬ (parseTaxCode ("CK100".data)).baseAllowance = some (-(100 * 10)) := by
  have hneg : (parseTaxCode ("CK100".data)).isNegativeAllowance = true := by
    simp [parseTaxCode, parseTaxCodeCore, trimList, listStartsWith, listIncludes,
      isJsWhite, toUpperChar]
  have hbase : (parseTaxCode ("CK100".data)).baseAllowance = some 1000 := by
    simp [parseTaxCode, parseTaxCodeCore, parseBaseAllowance, trimList, listStartsWith,
      listIncludes, listEndsWith, firstDigitRun, digitsToNat, isDigitChar, isJsWhite,
      toUpperChar]
    norm_num
  refine ⟨hneg, hbase, ?_⟩
  rw [hbase]
  intro h
  rw [Option.some.injEq] at h
  norm_num at h

/-- Claim C2 witness: the amended statement at the digit run `100`. -/
theorem claim_C2_witness :
    (1 ≤ (['1','0','0'] : List Char).length ∧ (['1','0','0'] : List Char).length ≤ 4 ∧
      (∀ c ∈ (['1','0','0'] : List Char), isDigitChar c = true)) ∧
    (parseTaxCode ('K' :: ['1','0','0'])).baseAllowance
      = some (-((digitsToNat ['1','0','0'] : ℚ) * 10)) ∧
    (parseTaxCode ('C' :: 'K' :: ['1','0','0'])).isNegativeAllowance = true := by
  have h := claim_C2 ['1','0','0'] (by decide) (by decide) (by decide)
  exact ⟨⟨by decide, by decide, by decide⟩, h.1.1, h.2.2.2⟩

/-! ## Validator grammar shapes and the exclusivity invariant -/

theorem parseTaxCodeCore_isNeg_false {n : List Char} (h : 'K' ∉ n) :
    (parseTaxCodeCore n).isNegativeAllowance = false := by
  rw [parseTaxCodeCore_isNeg]
  exact listIncludes_eq_false_of_not_mem (by decide) h

theorem parseTaxCodeCore_specialType_none_K {ds : List Char}
    (hds : ∀ c ∈ ds, isDigitChar c = true) :
    (parseTaxCodeCore ('K' :: ds)).specialCodeType = none := by
  have hN : 'N' ∉ ('K' :: ds) := by
    intro h
    rcases List.mem_cons.mp h with h | h
    · exact absurd h (by decide)
    · exact absurd (hds 'N' h) (by decide)
  exact (parseTaxCodeCore_not_special
    (by intro h; injection h with h1 _; exact absurd h1 (by decide))
    (by intro h; injection h with h1 _; exact absurd h1 (by decide))
    (by intro h; injection h with h1 _; exact absurd h1 (by decide))
    (listIncludes_eq_false_of_not_mem (show 'N' ∈ "NT".data from by decide) hN)
    (listStartsWith_cons_of_ne (by decide))).2

theorem parseTaxCodeCore_specialType_none_SK {ds : List Char}
    (hds : ∀ c ∈ ds, isDigitChar c = true) :
    (parseTaxCodeCore ('S' :: 'K' :: ds)).specialCodeType = none := by
  have hN : 'N' ∉ ('S' :: 'K' :: ds) := by
    intro h
    rcases List.mem_cons.mp h with h | h
    · exact absurd h (by decide)
    · rcases List.mem_cons.mp h with h | h
      · exact absurd h (by decide)
      · exact absurd (hds 'N' h) (by decide)
  exact (parseTaxCodeCore_not_special
    (by intro h; injection h with h1 _; exact absurd h1 (by decide))
    (by intro h; injection h with h1 _; exact absurd h1 (by decide))
    (by intro h; injection h with h1 _; exact absurd h1 (by decide))
    (listIncludes_eq_false_of_not_mem (show 'N' ∈ "NT".data from by decide) hN)
    (listStartsWith_cons_of_ne (by decide))).2

theorem parseTaxCodeCore_specialType_none_CK {ds : List Char}
    (hds : ∀ c ∈ ds, isDigitChar c = true) :
    (parseTaxCodeCore ('C' :: 'K' :: ds)).specialCodeType = none := by
  have hN : 'N' ∉ ('C' :: 'K' :: ds) := by
    intro h
    rcases List.mem_cons.mp h with h | h
    · exact absurd h (by decide)
    · rcases List.mem_cons.mp h with h | h
      · exact absurd h (by decide)
      · exact absurd (hds 'N' h) (by decide)
  exact (parseTaxCodeCore_not_special
    (by intro h; injection h with h1 _; exact absurd h1 (by decide))
    (by intro h; injection h with h1 _; exact absurd h1 (by decide))
    (by intro h; injection h with h1 _; exact absurd h1 (by decide))
    (listIncludes_eq_false_of_not_mem (show 'N' ∈ "NT".data from by decide) hN)
    (listStartsWith_cons_of_ne (by decide))).2

theorem stdSuffixOk_shapes {t : List Char} (h : stdSuffixOk t = true) :
    t = [] ∨ t = ['1'] ∨ t = ['W','1'] ∨ t = ['M','1'] := by
  unfold stdSuffixOk at h
  simp only [Bool.or_eq_true, beq_iff_eq] at h
  tauto

theorem letterTLMNWY_shapes {c : Char} (h : letterTLMNWY c = true) :
    c = 'T' ∨ c = 'L' ∨ c = 'M' ∨ c = 'N' ∨ c = 'W' ∨ c = 'Y' := by
  unfold letterTLMNWY at h
  simp only [Bool.or_eq_true, beq_iff_eq] at h
  tauto

theorem matchStdCore_shape {n : List Char} (h : matchStdCore n = true) :
    ∃ ds c tail, n = ds ++ c :: tail ∧ (∀ x ∈ ds, isDigitChar x = true) ∧
      letterTLMNWY c = true ∧ stdSuffixOk tail = true := by
  unfold matchStdCore at h
  rw [Bool.and_eq_true] at h
  obtain ⟨hds, hrest⟩ := h
  cases hdr : n.dropWhile isDigitChar with
  | nil =>
    rw [hdr] at hrest
    exact absurd hrest (by simp)
  | cons c tail =>
    rw [hdr] at hrest
    rw [Bool.and_eq_true] at hrest
    refine ⟨n.takeWhile isDigitChar, c, tail, ?_, ?_, hrest.1, hrest.2⟩
    · rw [← hdr, List.takeWhile_append_dropWhile]
    · intro x hx
      exact List.mem_takeWhile_imp hx

theorem stdSuffix_no_K {t : List Char} (ht : stdSuffixOk t = true) : 'K' ∉ t := by
  rcases stdSuffixOk_shapes ht with rfl | rfl | rfl | rfl <;> decide

theorem stdSuffix_no_white {x : Char} {t : List Char} (ht : stdSuffixOk t = true)
    (h : x ∈ t) : isJsWhite x = false := by
  rcases stdSuffixOk_shapes ht with rfl | rfl | rfl | rfl
  · exact absurd h (List.not_mem_nil x)
  · rcases List.mem_singleton.mp h with rfl
    decide
  · rcases List.mem_cons.mp h with rfl | h2
    · decide
    · rcases List.mem_singleton.mp h2 with rfl
      decide
  · rcases List.mem_cons.mp h with rfl | h2
    · decide
    · rcases List.mem_singleton.mp h2 with rfl
      decide

/-- No character of a standard-shape code is `K` or whitespace. -/
theorem std_shape_facts {ds : List Char} {c : Char} {tail : List Char}
    (hds : ∀ x ∈ ds, isDigitChar x = true) (hc : letterTLMNWY c = true)
    (ht : stdSuffixOk tail = true) :
    'K' ∉ (ds ++ c :: tail) ∧ (∀ x ∈ ds ++ c :: tail, isJsWhite x = false) := by
  constructor
  · intro hmem
    rcases List.mem_append.mp hmem with h | h
    · exact absurd (hds 'K' h) (by decide)
    · rcases List.mem_cons.mp h with h | h
      · rcases letterTLMNWY_shapes hc with rfl | rfl | rfl | rfl | rfl | rfl <;>
          exact absurd h (by decide)
      · exact stdSuffix_no_K ht h
  · intro x hx
    rcases List.mem_append.mp hx with h | h
    · exact isJsWhite_eq_false_of_isDigitChar (hds x h)
    · rcases List.mem_cons.mp h with rfl | h
      · rcases letterTLMNWY_shapes hc with rfl | rfl | rfl | rfl | rfl | rfl <;> decide
      · exact stdSuffix_no_white ht h

/-- Claim C8, amended: for every input string accepted by `validateTaxCode`,
the parsed descriptor never has `specialCodeType` set together with
`isNegativeAllowance = true` (for arbitrary strings the exclusivity can fail,
for instance on `KNT`). -/
theorem claim_C8 (l : List Char) (hv : (validateTaxCode l).isValid = true) :
    ¬ ((parseTaxCode l).specialCodeType ≠ none ∧
        (parseTaxCode l).isNegativeAllowance = true) := by
  by_cases h0 : l = [] ∨ trimList l = []
  · have hp : parseTaxCode l = defaultTaxCodeInfo := by
      unfold parseTaxCode
      rw [if_pos h0]
    rintro ⟨hs, _⟩
    rw [hp] at hs
    exact hs rfl
  · have hl : l ≠ [] := fun h => h0 (Or.inl h)
    unfold validateTaxCode at hv
    rw [if_neg h0] at hv
    dsimp only at hv
    by_cases hc : (matchSpecial (l.map toUpperChar) || matchKCode (l.map toUpperChar) ||
        matchSKCode (l.map toUpperChar) || matchCKCode (l.map toUpperChar) ||
        matchStdCore (l.map toUpperChar) || matchSStd (l.map toUpperChar) ||
        matchCStd (l.map toUpperChar)) = true
    · simp only [Bool.or_eq_true] at hc
      rcases hc with ((((((hsp | hK) | hSK) | hCK) | hstd) | hS) | hC)
      · unfold matchSpecial at hsp
        simp only [Bool.or_eq_true, beq_iff_eq] at hsp
        rintro ⟨_, hKtrue⟩
        rcases hsp with ((((h | h) | h) | h) | h) <;>
          · rw [parseTaxCode_eval hl h (by decide), parseTaxCodeCore_isNeg] at hKtrue
            exact absurd hKtrue (by decide)
      · rintro ⟨hs, _⟩
        cases hn : l.map toUpperChar with
        | nil => rw [hn] at hK; exact absurd hK (by decide)
        | cons c rest =>
          rw [hn] at hK
          simp only [matchKCode, Bool.and_eq_true, beq_iff_eq] at hK
          obtain ⟨rfl, hdig⟩ := hK
          simp only [digits1to4, Bool.and_eq_true, decide_eq_true_eq] at hdig
          have hds := List.all_eq_true.mp hdig.2
          have hwhite : ∀ x ∈ 'K' :: rest, isJsWhite x = false := by
            intro x hx
            rcases List.mem_cons.mp hx with rfl | hx
            · decide
            · exact isJsWhite_eq_false_of_isDigitChar (hds x hx)
          rw [parseTaxCode_eval hl hn hwhite,
            parseTaxCodeCore_specialType_none_K hds] at hs
          exact hs rfl
      · rintro ⟨hs, _⟩
        cases hn : l.map toUpperChar with
        | nil => rw [hn] at hSK; exact absurd hSK (by decide)
        | cons a rest0 =>
          cases rest0 with
          | nil => rw [hn] at hSK; simp [matchSKCode] at hSK
          | cons b rest =>
            rw [hn] at hSK
            simp only [matchSKCode, Bool.and_eq_true, beq_iff_eq] at hSK
            obtain ⟨⟨rfl, rfl⟩, hdig⟩ := hSK
            simp only [digits1to4, Bool.and_eq_true, decide_eq_true_eq] at hdig
            have hds := List.all_eq_true.mp hdig.2
            have hwhite : ∀ x ∈ 'S' :: 'K' :: rest, isJsWhite x = false := by
              intro x hx
              rcases List.mem_cons.mp hx with rfl | hx
              · decide
              · rcases List.mem_cons.mp hx with rfl | hx
                · decide
                · exact isJsWhite_eq_false_of_isDigitChar (hds x hx)
            rw [parseTaxCode_eval hl hn hwhite,
              parseTaxCodeCore_specialType_none_SK hds] at hs
            exact hs rfl
      · rintro ⟨hs, _⟩
        cases hn : l.map toUpperChar with
        | nil => rw [hn] at hCK; exact absurd hCK (by decide)
        | cons a rest0 =>
          cases rest0 with
          | nil => rw [hn] at hCK; simp [matchCKCode] at hCK
          | cons b rest =>
            rw [hn] at hCK
            simp only [matchCKCode, Bool.and_eq_true, beq_iff_eq] at hCK
            obtain ⟨⟨rfl, rfl⟩, hdig⟩ := hCK
            simp only [digits1to4, Bool.and_eq_true, decide_eq_true_eq] at hdig
            have hds := List.all_eq_true.mp hdig.2
            have hwhite : ∀ x ∈ 'C' :: 'K' :: rest, isJsWhite x = false := by
              intro x hx
              rcases List.mem_cons.mp hx with rfl | hx
              · decide
              · rcases List.mem_cons.mp hx with rfl | hx
                · decide
                · exact isJsWhite_eq_false_of_isDigitChar (hds x hx)
            rw [parseTaxCode_eval hl hn hwhite,
              parseTaxCodeCore_specialType_none_CK hds] at hs
            exact hs rfl
      · rintro ⟨_, hKtrue⟩
        obtain ⟨ds, c, tail, hshape, hds, hletter, hsuffix⟩ := matchStdCore_shape hstd
        obtain ⟨hnoK, hwhite⟩ := std_shape_facts hds hletter hsuffix
        rw [parseTaxCode_eval hl hshape hwhite, parseTaxCodeCore_isNeg,
          listIncludes_singleton] at hKtrue
        exact hnoK hKtrue
      · rintro ⟨_, hKtrue⟩
        cases hn : l.map toUpperChar with
        | nil => rw [hn] at hS; exact absurd hS (by decide)
        | cons a rest =>
          rw [hn] at hS
          simp only [matchSStd, Bool.and_eq_true, beq_iff_eq] at hS
          obtain ⟨rfl, hcore⟩ := hS
          obtain ⟨ds, c, tail, hshape, hds, hletter, hsuffix⟩ := matchStdCore_shape hcore
          obtain ⟨hnoK, hwhite⟩ := std_shape_facts hds hletter hsuffix
          subst hshape
          have hwhite' : ∀ x ∈ 'S' :: (ds ++ c :: tail), isJsWhite x = false := by
            intro x hx
            rcases List.mem_cons.mp hx with rfl | hx
            · decide
            · exact hwhite x hx
          rw [parseTaxCode_eval hl hn hwhite', parseTaxCodeCore_isNeg,
            listIncludes_singleton] at hKtrue
          rcases List.mem_cons.mp hKtrue with h | h
          · exact absurd h (by decide)
          · exact hnoK h
      · rintro ⟨_, hKtrue⟩
        cases hn : l.map toUpperChar with
        | nil => rw [hn] at hC; exact absurd hC (by decide)
        | cons a rest =>
          rw [hn] at hC
          simp only [matchCStd, Bool.and_eq_true, beq_iff_eq] at hC
          obtain ⟨rfl, hcore⟩ := hC
          obtain ⟨ds, c, tail, hshape, hds, hletter, hsuffix⟩ := matchStdCore_shape hcore
          obtain ⟨hnoK, hwhite⟩ := std_shape_facts hds hletter hsuffix
          subst hshape
          have hwhite' : ∀ x ∈ 'C' :: (ds ++ c :: tail), isJsWhite x = false := by
            intro x hx
            rcases List.mem_cons.mp hx with rfl | hx
            · decide
            · exact hwhite x hx
          rw [parseTaxCode_eval hl hn hwhite', parseTaxCodeCore_isNeg,
            listIncludes_singleton] at hKtrue
          rcases List.mem_cons.mp hKtrue with h | h
          · exact absurd h (by decide)
          · exact hnoK h
    · rw [if_neg hc] at hv
      exact absurd hv (by simp)

/-- Claim C8 counterexample: on the (invalid) input `KNT` the parser sets both
`specialCodeType = NT` and `isNegativeAllowance = true`, so the exclusivity
invariant fails for arbitrary strings. -/
theorem claim_C8_counterexample :
    (parseTaxCode ("KNT".data)).specialCodeType = some "NT" ∧
    (parseTaxCode ("KNT".data)).specialCodeType ≠ none ∧
    (parseTaxCode ("KNT".data)).isNegativeAllowance = true := by
  have h1 : (parseTaxCode ("KNT".data)).specialCodeType = some "NT" := by
    simp [parseTaxCode, parseTaxCodeCore, trimList, listStartsWith, listIncludes,
      isJsWhite, toUpperChar]
  refine ⟨h1, by rw [h1]; simp, ?_⟩
  simp [parseTaxCode, parseTaxCodeCore, trimList, listStartsWith, listIncludes,
    isJsWhite, toUpperChar]

/-- Claim C8 witness: the valid K code `K100` satisfies the amended invariant. -/
theorem claim_C8_witness :
    (validateTaxCode ("K100".data)).isValid = true ∧
    ¬ ((parseTaxCode ("K100".data)).specialCodeType ≠ none ∧
        (parseTaxCode ("K100".data)).isNegativeAllowance = true) :=
  ⟨by decide, claim_C8 ("K100".data) (by decide)⟩
